import Mathlib

/-!
Verification of the NewsApp LLM-orchestration layer (Go services
`fact_service.go` and `openai_service.go`, newer revisions in the sources).

Strings are modelled as rune sequences (`List Char`), matching Go's treatment
of the relevant operations, which all act on runes or on ASCII delimiter bytes
(ASCII bytes in valid UTF-8 coincide with ASCII runes).  Network calls,
`encoding/json` decoding and the SQL driver are external collaborators and are
modelled as explicit oracle/decoder parameters; all control flow, string
processing and list post-processing of the repository itself is translated
directly from the source.
-/

namespace NewsApp

/-- Rune string abbreviation: Go strings viewed as rune sequences. -/
abbrev Str := List Char

/-- Convert a Lean string literal to its rune sequence. -/
def strL (s : String) : Str := s.data

/-- Go `unicode.IsSpace` restricted to the ASCII whitespace characters
(the only whitespace appearing in the modelled data). -/
def isSpaceGo (c : Char) : Bool :=
  c = ' ' ∨ c = '\t' ∨ c = '\n' ∨ c = '\x0b' ∨ c = '\x0c' ∨ c = '\r'

/-- Go `strings.TrimSpace`: drop leading and trailing whitespace runes
(`List.rdropWhile p l` is `(l.reverse.dropWhile p).reverse`). -/
def trimSpace (s : Str) : Str :=
  List.rdropWhile isSpaceGo (s.dropWhile isSpaceGo)

/-- Go `strings.ToLower` (simple per-rune lowering; the strings compared in
this code are ASCII or caseless scripts such as Telugu). -/
def toLowerL (s : Str) : Str := s.map Char.toLower

/-- Go `strings.EqualFold` modelled as equality after per-rune lowering. -/
def eqFold (a b : Str) : Bool := toLowerL a = toLowerL b

/-- `hasPrefixL s p` : Go `strings.HasPrefix(s, p)`. -/
def hasPrefixL : Str → Str → Bool
  | _, [] => true
  | [], _ :: _ => false
  | c :: s, d :: p => c = d && hasPrefixL s p

/-- Go `strings.TrimPrefix(s, p)`. -/
def trimPrefixL (s p : Str) : Str :=
  if hasPrefixL s p then s.drop p.length else s

/-- Go `strings.TrimSuffix(s, p)`. -/
def trimSuffixL (s p : Str) : Str :=
  if hasPrefixL s.reverse p.reverse then s.take (s.length - p.length) else s

/-- `containsL hay needle` : Go `strings.Contains(hay, needle)`. -/
def containsL : Str → Str → Bool
  | s, needle =>
    if hasPrefixL s needle then true
    else
      match s with
      | [] => false
      | _ :: t => containsL t needle

/-- Go source `stripCodeFence` (openai_service.go): trim, strip a leading
"```json" / "```" prefix and a trailing "```" fence, trim again. -/
def stripCodeFence (value : Str) : Str :=
  let t0 := trimSpace value
  let t1 := trimPrefixL t0 (strL "```json")
  let t2 := trimPrefixL t1 (strL "```")
  let t3 := trimSuffixL t2 (strL "```")
  trimSpace t3

/-- Scanning loop of Go `extractFirstJSONObject`: starting at the first `{`
(the head of the remaining input), track brace depth, string literals and
escapes; when depth returns to zero, return the consumed slice. `acc` holds
the consumed runes in reverse. -/
def extractLoop : Str → Nat → Bool → Bool → Str → Option Str
  | [], _, _, _, _ => none
  | ch :: rest, depth, inString, escape, acc =>
    if inString then
      if escape then extractLoop rest depth inString false (ch :: acc)
      else if ch = '\\' then extractLoop rest depth inString true (ch :: acc)
      else if ch = '"' then extractLoop rest depth false false (ch :: acc)
      else extractLoop rest depth inString false (ch :: acc)
    else if ch = '"' then extractLoop rest depth true false (ch :: acc)
    else if ch = '{' then extractLoop rest (depth + 1) inString false (ch :: acc)
    else if ch = '}' then
      if depth = 1 then some (trimSpace (ch :: acc).reverse)
      else extractLoop rest (depth - 1) inString false (ch :: acc)
    else extractLoop rest depth inString false (ch :: acc)

/-- Go source `extractFirstJSONObject`: the first brace-balanced substring
starting at the first `{`, ignoring braces inside JSON string literals;
empty when there is no `{` or the braces never balance. -/
def extractFirstJSONObject (value : Str) : Str :=
  let s := value.dropWhile (fun c => ¬ c = '{')
  match s with
  | [] => []
  | _ :: _ => (extractLoop s 0 false false []).getD []

/-- Go source `normalizeJSONContent`, parameterised by `jv`, the model of
`encoding/json`'s `json.Valid`.  Returns `some` of the normalized JSON on
success and `none` on failure (Go's `(string, bool)` pair). -/
def normalizeJSONContent (jv : Str → Bool) (content : Str) : Option Str :=
  let clean := stripCodeFence content
  if jv clean then some clean
  else
    let extracted := extractFirstJSONObject clean
    if extracted ≠ [] ∧ jv extracted then some extracted else none

/-- Accumulating loop of Go `dedupeAndTrim`: `seen` is the set of lowercase
keys already emitted. -/
def dedupeAux (seen : List Str) : List Str → List Str
  | [] => []
  | v :: rest =>
    let clean := trimSpace v
    if clean = [] then dedupeAux seen rest
    else
      let key := toLowerL clean
      if key ∈ seen then dedupeAux seen rest
      else clean :: dedupeAux (key :: seen) rest

/-- Go source `dedupeAndTrim`: trim each element, drop empties, keep the
first occurrence among case-insensitive duplicates, preserving order. -/
def dedupeAndTrim (values : List Str) : List Str := dedupeAux [] values

/-- Go source `limitListItems`: truncate to at most `max` items
(no-op when `max ≤ 0`). -/
def limitListItems (values : List Str) (max : Int) : List Str :=
  if max ≤ 0 ∨ values.length ≤ max then values
  else values.take max.toNat

/-- Go source `truncateForPrompt`: trim and cut to at most `maxRunes` runes. -/
def truncateForPrompt (value : Str) (maxRunes : Int) : Str :=
  if maxRunes ≤ 0 then []
  else
    let clean := trimSpace value
    if clean.length ≤ maxRunes then clean
    else trimSpace (clean.take maxRunes.toNat)

/-- Go source `shrinkPromptInput`: trim; inputs of at most 900 runes are
returned unchanged, longer inputs are cut to about 72% of their rune length,
clamped to at least 900 and at most length−1 runes, and trimmed.
Go computes `int(float64(len(runes)) * 0.72)`; the binary64 rounding can
differ from `len * 72 / 100` by one rune for some lengths, which no proved
property depends on. -/
def shrinkPromptInput (text : Str) : Str :=
  let runes := trimSpace text
  if runes.length ≤ 900 then trimSpace text
  else
    let n0 : Nat := runes.length * 72 / 100
    let n1 : Nat := if n0 < 900 then 900 else n0
    let n2 : Nat := if n1 ≥ runes.length then runes.length - 1 else n1
    if n2 = 0 then trimSpace text
    else trimSpace (runes.take n2)

/-- Go source `isRequestTooLargeMessage`. -/
def isRequestTooLargeMessage (message : Str) : Bool :=
  let lower := toLowerL (trimSpace message)
  if lower = [] then false
  else
    containsL lower (strL "request too large") ||
    containsL lower (strL "reduce your message size") ||
    (containsL lower (strL "tokens per minute") && containsL lower (strL "requested")) ||
    containsL lower (strL "context length")

/-- Go source `shouldRetryWithoutJSONMode` (newer revision). -/
def shouldRetryWithoutJSONMode (message : Str) : Bool :=
  let lower := toLowerL message
  containsL lower (strL "response_format") ||
  containsL lower (strL "json_object") ||
  containsL lower (strL "failed to generate json") ||
  containsL lower (strL "failed_generation")

/-- Go source `containsTeluguScript`: some rune lies in U+0C00–U+0C7F. -/
def containsTeluguScript (value : Str) : Bool :=
  value.any (fun r => 0x0C00 ≤ r.toNat ∧ r.toNat ≤ 0x0C7F)

/-- Go source `normalizeOutputLanguage` (fact_service.go). -/
def normalizeOutputLanguage (requested : Str) (inputText : Str) : Str :=
  let clean := toLowerL (trimSpace requested)
  if clean = strL "te" ∨ clean = strL "telugu" ∨ clean = strL "తెలుగు" then strL "Telugu"
  else if clean = strL "en" ∨ clean = strL "english" then strL "English"
  else if containsTeluguScript inputText then strL "Telugu"
  else strL "English"

/-- Go source `stableGenerationLanguage`. -/
def stableGenerationLanguage (outputLanguage : Str) : Str :=
  if eqFold (trimSpace outputLanguage) (strL "Telugu") then strL "English"
  else outputLanguage

/-- Go source `compactLLMInput`: trim and truncate to at most 12000 runes. -/
def compactLLMInput (raw : Str) : Str :=
  let clean := trimSpace raw
  if clean = [] then clean
  else if clean.length ≤ 12000 then clean
  else clean.take 12000

/-- Go `error` values reaching this layer: either an `*apiRequestError`
(HTTP status and extracted message) or any other error with its message. -/
inductive GoErr : Type
  | api (status : Nat) (msg : Str)
  | plain (msg : Str)
deriving DecidableEq

/-- The message of an error (Go `err.Error()` without the api formatting). -/
def GoErr.message : GoErr → Str
  | .api _ m => m
  | .plain m => m

/-- Go `errors.As(err, &apiErr)`: whether the error is an `*apiRequestError`. -/
def GoErr.isApi : GoErr → Bool
  | .api _ _ => true
  | .plain _ => false

/-- Go source `isRequestTooLargeError`: an `*apiRequestError` whose message
matches `isRequestTooLargeMessage`. -/
def isRequestTooLargeError : GoErr → Bool
  | .api _ m => isRequestTooLargeMessage m
  | .plain _ => false

/-- The literal error produced when JSON normalization ultimately fails. -/
def invalidJSONErr : GoErr := GoErr.plain (strL "groq did not return valid json")

/-- Tail of Go `callJSONCompletion` after a completion succeeded with
`content`: normalize; on failure make one more completion call (index `k` of
the oracle) with JSON-mode off and normalize that, else fail with
`invalidJSONErr`.  The second component records the `useJSONFormat` flag of
every completion call performed, in order. -/
def afterContent (jv : Str → Bool) (o : Nat → Except GoErr Str) (k : Nat)
    (content : Str) (trace : List Bool) : Except GoErr Str × List Bool :=
  match normalizeJSONContent jv content with
  | some cleanJSON => (.ok cleanJSON, trace)
  | none =>
    match o k with
    | .error e => (.error e, trace ++ [false])
    | .ok content2 =>
      match normalizeJSONContent jv content2 with
      | some cleanJSON => (.ok cleanJSON, trace ++ [false])
      | none => (.error invalidJSONErr, trace ++ [false])

/-- Go source `callJSONCompletion` (newer revision).  `useJSONMode` is the
value of `shouldUseResponseFormatJSONMode()`; `o i` is the outcome of the
`i`-th HTTP completion call (`callCompletion` is pure transport and is
absorbed into the oracle); `jv` models `json.Valid`.  Returns the result and
the ordered list of `useJSONFormat` flags of the calls performed. -/
def callJSONCompletion (jv : Str → Bool) (o : Nat → Except GoErr Str)
    (useJSONMode : Bool) : Except GoErr Str × List Bool :=
  match o 0 with
  | .error e =>
    if useJSONMode ∧ e.isApi ∧ shouldRetryWithoutJSONMode e.message then
      match o 1 with
      | .error e2 => (.error e2, [useJSONMode, false])
      | .ok content => afterContent jv o 2 content [useJSONMode, false]
    else (.error e, [useJSONMode])
  | .ok content => afterContent jv o 1 content [useJSONMode]

/-- JSON values as decoded by Go `encoding/json` into `any`
(`map[string]interface` for objects; numbers are irrelevant here). -/
inductive JValue : Type
  | str (s : Str)
  | num (n : Int)
  | boolean (b : Bool)
  | null
  | arr (xs : List JValue)
  | obj (fields : List (Str × JValue))

/-- Go source `anyToString` on a present value. -/
def anyToStringV : JValue → Str
  | .str s => trimSpace s
  | _ => []

/-- Go source `anyToString`, where `none` models an absent map key (`nil`). -/
def anyToString : Option JValue → Str
  | some v => anyToStringV v
  | none => []

/-- Go source `anyToStringSlice`: keep the trimmed non-empty strings of an
`[]any` value, dropping non-string elements; empty for non-arrays. -/
def anyToStringSlice : Option JValue → List Str
  | some (.arr items) =>
    items.filterMap (fun it =>
      let t := anyToStringV it
      if t = [] then none else some t)
  | _ => []

/-- Exact-key lookup in the decoded object (Go `payload[preferredKey]`);
decoded JSON objects have unique keys, modelled as the first binding. -/
def lookupExact (payload : List (Str × JValue)) (key : Str) : Option JValue :=
  (payload.find? (fun kv => kv.1 = key)).map (·.2)

/-- Go source `parseFirstStringArrayField` on the decoded object: the exact
key's value when it yields a non-empty string list, else the first key that
matches case-insensitively after trimming and yields a non-empty list, else
the single value of a one-key object. -/
def parseFirstStringArrayField (payload : List (Str × JValue)) (preferredKey : Str) :
    List Str :=
  let exact := anyToStringSlice (lookupExact payload preferredKey)
  if exact ≠ [] then exact
  else
    match payload.find? (fun kv =>
        eqFold (trimSpace kv.1) preferredKey ∧ anyToStringSlice (some kv.2) ≠ []) with
    | some kv => anyToStringSlice (some kv.2)
    | none =>
      match payload with
      | [kv] => anyToStringSlice (some kv.2)
      | _ => []

/-- Go source `parseFirstStringField` on the decoded object (same key
selection, for a single string value). -/
def parseFirstStringField (payload : List (Str × JValue)) (preferredKey : Str) : Str :=
  let exact := anyToString (lookupExact payload preferredKey)
  if exact ≠ [] then exact
  else
    match payload.find? (fun kv =>
        eqFold (trimSpace kv.1) preferredKey ∧ anyToStringV kv.2 ≠ []) with
    | some kv => anyToStringV kv.2
    | none =>
      match payload with
      | [kv] => anyToStringV kv.2
      | _ => []

/-- Go `parseFirstStringArrayField` applied to a raw JSON string, with
`parseObj` modelling `json.Unmarshal` into `map[string]any`
(Go source `parseJSONObject`). -/
def scanArrayField (parseObj : Str → Option (List (Str × JValue)))
    (rawJSON : Str) (preferredKey : Str) : List Str :=
  match parseObj rawJSON with
  | none => []
  | some payload => parseFirstStringArrayField payload preferredKey

/-- Go `parseFirstStringField` applied to a raw JSON string. -/
def scanStringField (parseObj : Str → Option (List (Str × JValue)))
    (rawJSON : Str) (preferredKey : Str) : Str :=
  match parseObj rawJSON with
  | none => []
  | some payload => parseFirstStringField payload preferredKey

/-- The missing-API-key error shared by every stage. -/
def apiKeyMissingErr : GoErr :=
  GoErr.plain (strL "GROQ_API_KEY (or OPENAI_API_KEY) is missing")

/-- Retry loop of Go `ExtractFacts` (newer revision): at most `fuel` more
attempts; `oracle a input` is the outcome of `callJSONCompletion` for attempt
`a` on the current (possibly shrunk) input, `decodeFacts` models
`json.Unmarshal` into `factsOutput`, `parseObj` models `parseJSONObject`.
Returns the result and the list of inputs actually attempted, in order. -/
def extractFactsLoop (decodeFacts : Str → Except Str (List Str))
    (parseObj : Str → Option (List (Str × JValue)))
    (oracle : Nat → Str → Except GoErr Str) :
    Nat → Nat → Str → Option GoErr → Except GoErr (List Str) × List Str
  | 0, _, _, lastErr =>
    (match lastErr with
     | some e => .error e
     | none => .error (.plain (strL "extract facts failed after retries")), [])
  | fuel + 1, attempt, currentInput, _lastErr =>
    match oracle attempt currentInput with
    | .ok rawJSON =>
      (match decodeFacts rawJSON with
       | .error e => .error (.plain (strL "parse facts response: " ++ e))
       | .ok fs =>
         let fs2 := if fs = [] then scanArrayField parseObj rawJSON (strL "facts") else fs
         let deduped := dedupeAndTrim fs2
         if deduped = [] then .error (.plain (strL "groq returned empty facts"))
         else .ok deduped, [currentInput])
    | .error e =>
      if ¬ isRequestTooLargeError e then (.error e, [currentInput])
      else
        let shorter := shrinkPromptInput currentInput
        if shorter = currentInput then (.error e, [currentInput])
        else
          let r := extractFactsLoop decodeFacts parseObj oracle fuel (attempt + 1)
            shorter (some e)
          (r.1, currentInput :: r.2)

/-- Go source `ExtractFacts` (newer revision): empty-input and API-key
guards, then the 4-attempt shrink-and-retry loop. -/
def ExtractFacts (hasApiKey : Bool) (decodeFacts : Str → Except Str (List Str))
    (parseObj : Str → Option (List (Str × JValue)))
    (oracle : Nat → Str → Except GoErr Str) (text : Str) :
    Except GoErr (List Str) × List Str :=
  let clean := trimSpace text
  if clean = [] then (.error (.plain (strL "input text is empty")), [])
  else if ¬ hasApiKey then (.error apiKeyMissingErr, [])
  else extractFactsLoop decodeFacts parseObj oracle 4 1 clean none

/-- Go source `GenerateGapQuestions` (newer revision): decode `gaps`, field
scan fallback, dedupe, reject empty. `oracle` is the `callJSONCompletion`
outcome. -/
def GenerateGapQuestions (hasApiKey : Bool)
    (decodeGaps : Str → Except Str (List Str))
    (parseObj : Str → Option (List (Str × JValue)))
    (oracle : Except GoErr Str) (facts : List Str) : Except GoErr (List Str) :=
  if ¬ hasApiKey then .error apiKeyMissingErr
  else if facts = [] then .error (.plain (strL "facts are required to generate gaps"))
  else
    match oracle with
    | .error e => .error e
    | .ok rawJSON =>
      match decodeGaps rawJSON with
      | .error e => .error (.plain (strL "parse gaps response: " ++ e))
      | .ok gs =>
        let gs2 := if gs = [] then scanArrayField parseObj rawJSON (strL "gaps") else gs
        let deduped := dedupeAndTrim gs2
        if deduped = [] then .error (.plain (strL "groq returned empty gaps"))
        else .ok deduped

/-- Go source `GenerateStructuredArticle` (newer revision): decode `article`,
`parseFirstStringField` fallback, reject empty. -/
def GenerateStructuredArticle (hasApiKey : Bool)
    (decodeArticle : Str → Except Str Str)
    (parseObj : Str → Option (List (Str × JValue)))
    (oracle : Except GoErr Str) (facts gaps : List Str) : Except GoErr Str :=
  if ¬ hasApiKey then .error apiKeyMissingErr
  else if facts = [] then .error (.plain (strL "facts are required to generate article"))
  else
    let _promptGaps :=
      if gaps = [] then ([] : Str)
      else strL "- " ++ List.intercalate (strL "\n- ") gaps
    match oracle with
    | .error e => .error e
    | .ok rawJSON =>
      match decodeArticle rawJSON with
      | .error e => .error (.plain (strL "parse article response: " ++ e))
      | .ok a =>
        let article := trimSpace a
        let article2 :=
          if article = [] then trimSpace (scanStringField parseObj rawJSON (strL "article"))
          else article
        if article2 = [] then .error (.plain (strL "groq returned empty article"))
        else .ok article2

/-- Go source `GenerateHeadlineOptions`: dedupe the decoded/scanned
headlines and return at most 5. -/
def GenerateHeadlineOptions (hasApiKey : Bool)
    (decodeHeadlines : Str → Except Str (List Str))
    (parseObj : Str → Option (List (Str × JValue)))
    (oracle : Except GoErr Str) (facts : List Str) : Except GoErr (List Str) :=
  if ¬ hasApiKey then .error apiKeyMissingErr
  else
    let factsBlock := strL "- " ++ List.intercalate (strL "\n- ") (dedupeAndTrim facts)
    if trimSpace factsBlock = strL "-" then
      .error (.plain (strL "facts are required to generate headlines"))
    else
      match oracle with
      | .error e => .error e
      | .ok rawJSON =>
        match decodeHeadlines rawJSON with
        | .error e => .error (.plain (strL "parse headlines response: " ++ e))
        | .ok hs =>
          let hs2 := if hs = [] then scanArrayField parseObj rawJSON (strL "headlines") else hs
          let deduped := dedupeAndTrim hs2
          if deduped = [] then .error (.plain (strL "groq returned empty headlines"))
          else .ok (limitListItems deduped 5)

/-- Go source `GenerateStraplineOptions`: dedupe the decoded/scanned
straplines and return at most 4. -/
def GenerateStraplineOptions (hasApiKey : Bool)
    (decodeStraplines : Str → Except Str (List Str))
    (parseObj : Str → Option (List (Str × JValue)))
    (oracle : Except GoErr Str) (facts gaps : List Str) : Except GoErr (List Str) :=
  if ¬ hasApiKey then .error apiKeyMissingErr
  else
    let factsBlock := strL "- " ++ List.intercalate (strL "\n- ") (dedupeAndTrim facts)
    let gapsBlock := strL "- " ++ List.intercalate (strL "\n- ") (dedupeAndTrim gaps)
    let _promptGaps := if trimSpace gapsBlock = strL "-" then strL "- None" else gapsBlock
    if trimSpace factsBlock = strL "-" then
      .error (.plain (strL "facts are required to generate straplines"))
    else
      match oracle with
      | .error e => .error e
      | .ok rawJSON =>
        match decodeStraplines rawJSON with
        | .error e => .error (.plain (strL "parse straplines response: " ++ e))
        | .ok ss =>
          let ss2 := if ss = [] then scanArrayField parseObj rawJSON (strL "straplines") else ss
          let deduped := dedupeAndTrim ss2
          if deduped = [] then .error (.plain (strL "groq returned empty straplines"))
          else .ok (limitListItems deduped 4)

/-- Split on the newline rune (Go `strings.Split(s, "\n")`); `acc` holds the
current segment reversed. -/
def splitNLAux : Str → Str → List Str
  | [], acc => [acc.reverse]
  | c :: t, acc => if c = '\n' then acc.reverse :: splitNLAux t [] else splitNLAux t (c :: acc)

/-- Go `strings.Split(s, "\n")`. -/
def splitNL (s : Str) : List Str := splitNLAux s []

/-- Go regex replacement of `leadingListMarkerPattern`
(`^\s*(?:[-*]+|\d+[\)\].:-]?)\s*` replaced by the empty string): remove a
leading bullet run or a number with optional punctuation, plus surrounding
whitespace; lines without such a marker are unchanged. -/
def stripLeadingListMarker (s : Str) : Str :=
  let s1 := s.dropWhile isSpaceGo
  match s1 with
  | [] => s
  | c :: _ =>
    if c = '-' ∨ c = '*' then
      (s1.dropWhile (fun d => d = '-' ∨ d = '*')).dropWhile isSpaceGo
    else if c.isDigit then
      let s2 := s1.dropWhile Char.isDigit
      let s3 := match s2 with
        | d :: t => if d = ')' ∨ d = ']' ∨ d = '.' ∨ d = ':' ∨ d = '-' then t else s2
        | [] => []
      s3.dropWhile isSpaceGo
    else s

/-- Go source `parseLineList`: strip fences; `decodeStrList` models
`json.Unmarshal` into `[]string` (a JSON string array); otherwise split into
lines, drop markers and blanks, and dedupe. -/
def parseLineList (decodeStrList : Str → Option (List Str)) (content : Str) : List Str :=
  let trimmed := trimSpace (stripCodeFence content)
  if trimmed = [] then []
  else
    match decodeStrList trimmed with
    | some l => dedupeAndTrim l
    | none =>
      let lines := splitNL trimmed
      let result := lines.filterMap (fun line =>
        let clean := trimSpace line
        if clean = [] then none
        else
          let clean2 := trimSpace (stripLeadingListMarker clean)
          if clean2 = [] then none else some clean2)
      dedupeAndTrim result

/-- Go source `TranslateText`: English passes through trimmed without an API
call; otherwise `oracle` is the completion outcome. -/
def TranslateText (hasApiKey : Bool) (oracle : Except GoErr Str)
    (text language : Str) : Except GoErr Str :=
  if ¬ hasApiKey then .error apiKeyMissingErr
  else
    let cleanText := trimSpace text
    let cleanLanguage := trimSpace language
    if cleanText = [] then .error (.plain (strL "text is empty"))
    else if eqFold cleanLanguage (strL "English") then .ok cleanText
    else
      match oracle with
      | .error e => .error e
      | .ok content =>
        let translated := trimSpace (stripCodeFence content)
        if translated = [] then .error (.plain (strL "translation returned empty text"))
        else .ok translated

/-- Fallback loop of Go `TranslateList`: translate every item (including
ones whose trim is empty) individually via `TranslateText`; `oracleEach i`
is the completion outcome for the `i`-th item. -/
def translateEach (hasApiKey : Bool) (oracleEach : Nat → Except GoErr Str)
    (language : Str) : Nat → List Str → Except GoErr (List Str)
  | _, [] => .ok []
  | i, item :: rest =>
    match TranslateText hasApiKey (oracleEach i) item language with
    | .error e => .error e
    | .ok t =>
      match translateEach hasApiKey oracleEach language (i + 1) rest with
      | .error e => .error e
      | .ok ts => .ok (t :: ts)

/-- The prompt-line builder of Go `TranslateList`: one line per item with a
non-empty trim (the `"N. "` numbering prefixes feed only the prompt, which
the oracle absorbs, so only the cleaned items matter). -/
def promptLines (items : List Str) : List Str :=
  items.filterMap (fun it =>
    let c := trimSpace it
    if c = [] then none else some c)

/-- Go source `TranslateList`.  The Bool records whether the
list-translation completion call was issued. -/
def TranslateList (hasApiKey : Bool) (decodeStrList : Str → Option (List Str))
    (oracle : Except GoErr Str) (oracleEach : Nat → Except GoErr Str)
    (items : List Str) (language : Str) : Except GoErr (List Str) × Bool :=
  if ¬ hasApiKey then (.error apiKeyMissingErr, false)
  else
    let cleanLanguage := trimSpace language
    if eqFold cleanLanguage (strL "English") ∨ items = [] then
      (.ok (dedupeAndTrim items), false)
    else
      let lines := promptLines items
      if lines = [] then (.error (.plain (strL "no items to translate")), false)
      else
        match oracle with
        | .error e => (.error e, true)
        | .ok content =>
          let translated := parseLineList decodeStrList content
          if translated = [] then
            (.error (.plain (strL "translation returned empty list")), true)
          else if translated.length ≠ lines.length then
            (translateEach hasApiKey oracleEach cleanLanguage 0 items, true)
          else (.ok translated, true)

/-- Go `models.PhaseOneResponse`. -/
structure PhaseOneResponse where
  articleID : Int
  language : Str
  facts : List Str
  gaps : List Str
  article : Str
deriving DecidableEq

/-- The zero value `models.PhaseOneResponse{}` returned with every error. -/
def zeroPhaseOneResponse : PhaseOneResponse := ⟨0, [], [], [], []⟩

/-- Go source `RunPhaseOne` (newer revision of fact_service.go).  The service
collaborators are oracle parameters: `settingsErr` is the outcome of
`applyRuntimeAISettings`, `resolved` the outcome of `resolveInput`
(raw text and source URL), `extract`/`genGaps`/`genArticle`/`trList`/`trText`
the `OpenAIService` stages, and `save` the outcome of `savePhaseOne`.
The language normalization, input compaction and all sequencing are
translated directly.  Returns the Go `(response, error)` pair. -/
def runPhaseOne (dbInit : Bool) (settingsErr : Option GoErr)
    (resolved : Except GoErr (Str × Str))
    (extract : Str → Str → Except GoErr (List Str))
    (genGaps : Str → List Str → Str → Except GoErr (List Str))
    (genArticle : List Str → List Str → Str → Except GoErr Str)
    (trList : List Str → Str → Except GoErr (List Str))
    (trText : Str → Str → Except GoErr Str)
    (save : Str → Str → Str → Str → List Str → List Str → Except GoErr Int)
    (inputLanguage category : Str) : PhaseOneResponse × Option GoErr :=
  if ¬ dbInit then (zeroPhaseOneResponse, some (.plain (strL "database is not initialized")))
  else
    match settingsErr with
    | some e => (zeroPhaseOneResponse, some e)
    | none =>
      match resolved with
      | .error e => (zeroPhaseOneResponse, some e)
      | .ok (rawText, sourceURL) =>
        let outputLanguage := normalizeOutputLanguage inputLanguage rawText
        let generationLanguage := stableGenerationLanguage outputLanguage
        let llmInput := compactLLMInput rawText
        match extract llmInput generationLanguage with
        | .error e => (zeroPhaseOneResponse, some e)
        | .ok facts =>
          match genGaps llmInput facts generationLanguage with
          | .error e => (zeroPhaseOneResponse, some e)
          | .ok gaps =>
            match genArticle facts gaps generationLanguage with
            | .error e => (zeroPhaseOneResponse, some e)
            | .ok articleText =>
              if outputLanguage ≠ generationLanguage then
                match trList facts outputLanguage with
                | .error e => (zeroPhaseOneResponse, some e)
                | .ok facts2 =>
                  match trList gaps outputLanguage with
                  | .error e => (zeroPhaseOneResponse, some e)
                  | .ok gaps2 =>
                    match trText articleText outputLanguage with
                    | .error e => (zeroPhaseOneResponse, some e)
                    | .ok article2 =>
                      match save sourceURL rawText article2 category facts2 gaps2 with
                      | .error e => (zeroPhaseOneResponse, some e)
                      | .ok aid => (⟨aid, outputLanguage, facts2, gaps2, article2⟩, none)
              else
                match save sourceURL rawText articleText category facts gaps with
                | .error e => (zeroPhaseOneResponse, some e)
                | .ok aid => (⟨aid, outputLanguage, facts, gaps, articleText⟩, none)

/-- A stored `articles` row (newer revision: status "pending",
selected_format "timeline", optional topic). -/
structure ArticleRow where
  sourceURL : Str
  rawText : Str
  status : Str
  selectedFormat : Str
  articleText : Str
  topicID : Option Int
deriving DecidableEq

/-- A stored `facts` row. -/
structure FactRow where
  articleID : Int
  factText : Str
  isConfirmed : Bool
  isIncluded : Bool
  source : Str
deriving DecidableEq

/-- A stored `gaps` row. -/
structure GapRow where
  articleID : Int
  question : Str
  isSelected : Bool
  isResolved : Bool
deriving DecidableEq

/-- The relational store visible to `savePhaseOne`: the three tables plus
auto-increment sequences. -/
structure DBState where
  topics : List (Int × Str)
  topicSeq : Int
  articles : List (Int × ArticleRow)
  articleSeq : Int
  facts : List FactRow
  gaps : List GapRow
deriving DecidableEq

/-- Failure injection for the SQL driver: each statement of `savePhaseOne`
may fail with a driver error (`factErr`/`gapErr` are indexed by the count of
row inserts already executed in that table). -/
structure SaveFx where
  beginErr : Option GoErr
  topicSelectErr : Option GoErr
  topicInsertErr : Option GoErr
  articleErr : Option GoErr
  factErr : Nat → Option GoErr
  gapErr : Nat → Option GoErr
  commitErr : Option GoErr

/-- Go source `resolveTopicID`: empty category stores no topic; otherwise
case-insensitive lookup (`LOWER(name) = LOWER(?)`), inserting a new topic row
when absent.  Runs inside the transaction, so it acts on the tx state. -/
def resolveTopicID (s : DBState) (fx : SaveFx) (category : Str) :
    Except GoErr (DBState × Option Int) :=
  let cleanCategory := trimSpace category
  if cleanCategory = [] then .ok (s, none)
  else
    match fx.topicSelectErr with
    | some e => .error e
    | none =>
      match s.topics.find? (fun kv => toLowerL kv.2 = toLowerL cleanCategory) with
      | some kv => .ok (s, some kv.1)
      | none =>
        match fx.topicInsertErr with
        | some e => .error e
        | none =>
          let tid := s.topicSeq + 1
          .ok ({ s with topics := s.topics ++ [(tid, cleanCategory)], topicSeq := tid },
               some tid)

/-- Row-insert loop of Go `insertFacts`: trim, skip whitespace-only facts,
stop at the first driver error.  `k` counts executed inserts. -/
def insertFactRows (errf : Nat → Option GoErr) (articleID : Int) :
    List Str → Nat → Except GoErr (List FactRow)
  | [], _ => .ok []
  | f :: rest, k =>
    let cleanFact := trimSpace f
    if cleanFact = [] then insertFactRows errf articleID rest k
    else
      match errf k with
      | some e => .error e
      | none =>
        match insertFactRows errf articleID rest (k + 1) with
        | .error e => .error e
        | .ok rows => .ok (⟨articleID, cleanFact, false, true, strL "ai"⟩ :: rows)

/-- Row-insert loop of Go `insertGaps` (newer revision: is_selected true,
is_resolved false). -/
def insertGapRows (errg : Nat → Option GoErr) (articleID : Int) :
    List Str → Nat → Except GoErr (List GapRow)
  | [], _ => .ok []
  | g :: rest, k =>
    let cleanGap := trimSpace g
    if cleanGap = [] then insertGapRows errg articleID rest k
    else
      match errg k with
      | some e => .error e
      | none =>
        match insertGapRows errg articleID rest (k + 1) with
        | .error e => .error e
        | .ok rows => .ok (⟨articleID, cleanGap, true, false⟩ :: rows)

/-- The transaction body of Go `savePhaseOne`: topic resolution, the article
insert, the fact and gap row inserts, then commit.  Any error aborts with
no state produced (its caller discards the tx state, modelling the deferred
`tx.Rollback`). -/
def savePhaseOneTx (s : DBState) (fx : SaveFx)
    (sourceURL rawText articleText category : Str)
    (facts gaps : List Str) : Except GoErr (DBState × Int) :=
  match resolveTopicID s fx category with
  | .error e => .error e
  | .ok (s1, topicID) =>
    match fx.articleErr with
    | some e => .error e
    | none =>
      let aid := s1.articleSeq + 1
      let row : ArticleRow :=
        ⟨sourceURL, rawText, strL "pending", strL "timeline", articleText, topicID⟩
      let s2 := { s1 with articles := s1.articles ++ [(aid, row)], articleSeq := aid }
      match insertFactRows fx.factErr aid facts 0 with
      | .error e => .error e
      | .ok factRows =>
        match insertGapRows fx.gapErr aid gaps 0 with
        | .error e => .error e
        | .ok gapRows =>
          match fx.commitErr with
          | some e => .error e
          | none =>
            .ok ({ s2 with facts := s2.facts ++ factRows, gaps := s2.gaps ++ gapRows }, aid)

/-- Go source `savePhaseOne` (newer revision): begin a transaction, run the
body, and either commit the new state or roll back to the original state,
returning article ID 0 with the error.  The `committed`-flag plus deferred
`tx.Rollback()` of the source, together with every error path returning
`(0, err)`, is modelled by discarding the tx state on error. -/
def savePhaseOne (s : DBState) (fx : SaveFx)
    (sourceURL rawText articleText category : Str)
    (facts gaps : List Str) : DBState × Int × Option GoErr :=
  match fx.beginErr with
  | some e => (s, 0, some e)
  | none =>
    match savePhaseOneTx s fx sourceURL rawText articleText category facts gaps with
    | .error e => (s, 0, some e)
    | .ok (s2, aid) => (s2, aid, none)

/-- C2: the response normalizer strips the code fence and trims; stripped
content that is valid JSON is returned unchanged; otherwise the first
brace-balanced substring starting at the first `{` is returned when it is
valid JSON and non-empty (no `{` means no extraction); when neither succeeds
normalization fails and `callJSONCompletion` (after its retry) returns the
error "groq did not return valid json". -/
theorem c2_normalize_json_content (jv : Str → Bool) (c v : Str)
    (o : Nat → Except GoErr Str) (mode : Bool) (c0 c1 : Str) :
    (jv (stripCodeFence c) = true →
      normalizeJSONContent jv c = some (stripCodeFence c))
    ∧ (jv (stripCodeFence c) = false →
        extractFirstJSONObject (stripCodeFence c) ≠ [] →
        jv (extractFirstJSONObject (stripCodeFence c)) = true →
        normalizeJSONContent jv c = some (extractFirstJSONObject (stripCodeFence c)))
    ∧ (jv (stripCodeFence c) = false →
        (extractFirstJSONObject (stripCodeFence c) = [] ∨
          jv (extractFirstJSONObject (stripCodeFence c)) = false) →
        normalizeJSONContent jv c = none)
    ∧ ('{' ∉ v → extractFirstJSONObject v = [])
    ∧ (o 0 = .ok c0 → normalizeJSONContent jv c0 = none →
        o 1 = .ok c1 → normalizeJSONContent jv c1 = none →
        (callJSONCompletion jv o mode).1 = .error invalidJSONErr) := by
  refine ⟨?_, ?_, ?_, ?_, ?_⟩
  · intro h
    simp [normalizeJSONContent, h]
  · intro h hne hjv
    simp [normalizeJSONContent, h, hne, hjv]
  · intro h hbad
    rcases hbad with hb | hb <;> simp [normalizeJSONContent, h, hb]
  · intro h
    have hdrop : v.dropWhile (fun c => !decide (c = '{')) = [] := by
      rw [List.dropWhile_eq_nil_iff]
      intro x hx
      have hne : x ≠ '{' := fun he => h (he ▸ hx)
      simp [hne]
    simp [extractFirstJSONObject, hdrop]
  · intro h0 hn0 h1 hn1
    simp [callJSONCompletion, afterContent, h0, hn0, h1, hn1]

/-- Witness for C2 at concrete inputs: the validator accepting only `{}`
makes `normalizeJSONContent` extract the balanced object from noisy text,
and two unusable responses make `callJSONCompletion` fail with the fixed
error message. -/
theorem c2_normalize_json_content_witness :
    ((fun s => decide (s = ['{', '}'])) (stripCodeFence ['x', '{', '}']) = false
      ∧ extractFirstJSONObject (stripCodeFence ['x', '{', '}']) ≠ []
      ∧ (fun s => decide (s = ['{', '}']))
          (extractFirstJSONObject (stripCodeFence ['x', '{', '}'])) = true)
    ∧ normalizeJSONContent (fun s => decide (s = ['{', '}'])) ['x', '{', '}']
        = some ['{', '}'] :=
  ⟨⟨by decide, by decide, by decide⟩,
    (c2_normalize_json_content (fun s => decide (s = ['{', '}'])) ['x', '{', '}'] []
      (fun _ => .ok []) true [] []).2.1 (by decide) (by decide) (by decide)⟩

/-- C3: a JSON-mode completion failing with an API error whose message
matches `shouldRetryWithoutJSONMode` is retried exactly once with JSON-mode
off (the call trace starts `[true, false]` and any later call is the
separate malformed-JSON retry, also with JSON-mode off); non-matching API
errors are returned without any retry, and no JSON-mode retry happens when
the first call was already made without JSON-mode. -/
theorem c3_json_mode_retry (jv : Str → Bool) (o : Nat → Except GoErr Str)
    (st : Nat) (m : Str) (e2 : GoErr) :
    (o 0 = .error (.api st m) → shouldRetryWithoutJSONMode m = true →
      (callJSONCompletion jv o true).2 = [true, false]
        ∨ (callJSONCompletion jv o true).2 = [true, false, false])
    ∧ (o 0 = .error (.api st m) → shouldRetryWithoutJSONMode m = true →
        o 1 = .error e2 →
        callJSONCompletion jv o true = (.error e2, [true, false]))
    ∧ (o 0 = .error (.api st m) → shouldRetryWithoutJSONMode m = false →
        callJSONCompletion jv o true = (.error (.api st m), [true]))
    ∧ (o 0 = .error (.api st m) →
        callJSONCompletion jv o false = (.error (.api st m), [false])) := by
  refine ⟨?_, ?_, ?_, ?_⟩
  · intro h0 hm
    cases h1 : o 1 with
    | error e =>
      left
      simp [callJSONCompletion, h0, GoErr.isApi, GoErr.message, hm, h1]
    | ok content =>
      cases hn : normalizeJSONContent jv content with
      | some cj =>
        left
        simp [callJSONCompletion, afterContent, h0, GoErr.isApi, GoErr.message, hm, h1, hn]
      | none =>
        right
        cases h2 : o 2 with
        | error e =>
          simp [callJSONCompletion, afterContent, h0, GoErr.isApi, GoErr.message, hm, h1,
            hn, h2]
        | ok content2 =>
          cases hn2 : normalizeJSONContent jv content2 <;>
            simp [callJSONCompletion, afterContent, h0, GoErr.isApi, GoErr.message, hm,
              h1, hn, h2, hn2]
  · intro h0 hm h1
    simp [callJSONCompletion, h0, GoErr.isApi, GoErr.message, hm, h1]
  · intro h0 hm
    simp [callJSONCompletion, h0, GoErr.isApi, GoErr.message, hm]
  · intro h0
    simp [callJSONCompletion, h0]

/-- Witness for C3 at concrete inputs: a "response_format" API error with
JSON-mode on is retried once without JSON-mode, and the retry's error is
returned. -/
theorem c3_json_mode_retry_witness :
    ((fun _ : Nat => (Except.error (GoErr.api 400 (strL "response_format not supported"))
        : Except GoErr Str)) 0
        = .error (.api 400 (strL "response_format not supported"))
      ∧ shouldRetryWithoutJSONMode (strL "response_format not supported") = true)
    ∧ callJSONCompletion (fun _ => true)
        (fun _ => .error (.api 400 (strL "response_format not supported"))) true
      = (.error (.api 400 (strL "response_format not supported")), [true, false]) :=
  ⟨⟨rfl, by decide⟩,
    (c3_json_mode_retry (fun _ => true)
      (fun _ => .error (.api 400 (strL "response_format not supported")))
      400 (strL "response_format not supported")
      (.api 400 (strL "response_format not supported"))).2.1
      rfl (by decide) rfl⟩

/-- C4: a successful completion whose content fails JSON normalization
triggers exactly one additional completion call with JSON-mode off; if that
second response also fails normalization, the result is the error
"groq did not return valid json" and no further calls are made. -/
theorem c4_malformed_json_retry (jv : Str → Bool) (o : Nat → Except GoErr Str)
    (mode : Bool) (c0 c1 : Str) :
    o 0 = .ok c0 → normalizeJSONContent jv c0 = none →
    ((callJSONCompletion jv o mode).2 = [mode, false]
      ∧ (o 1 = .ok c1 → normalizeJSONContent jv c1 = none →
          callJSONCompletion jv o mode = (.error invalidJSONErr, [mode, false]))) := by
  intro h0 hn0
  constructor
  · cases h1 : o 1 with
    | error e => simp [callJSONCompletion, afterContent, h0, hn0, h1]
    | ok content =>
      cases hn1 : normalizeJSONContent jv content <;>
        simp [callJSONCompletion, afterContent, h0, hn0, h1, hn1]
  · intro h1 hn1
    simp [callJSONCompletion, afterContent, h0, hn0, h1, hn1]

/-- Witness for C4 at concrete inputs: two successful completions with
non-JSON content produce the fixed invalid-JSON error after exactly one
retry without JSON-mode. -/
theorem c4_malformed_json_retry_witness :
    ((fun _ : Nat => (Except.ok ['x'] : Except GoErr Str)) 0 = .ok ['x']
      ∧ normalizeJSONContent (fun _ => false) ['x'] = none)
    ∧ callJSONCompletion (fun _ => false) (fun _ => .ok ['x']) true
        = (.error invalidJSONErr, [true, false]) :=
  ⟨⟨rfl, by decide⟩,
    (c4_malformed_json_retry (fun _ => false) (fun _ => .ok ['x']) true ['x'] ['x']
      rfl (by decide)).2 rfl (by decide)⟩

/-- A prefix of a list with no droppable head has no droppable head. -/
theorem dropWhile_eq_self_of_isPrefix {α : Type} {p : α → Bool} {u v : List α}
    (hvu : v <+: u) (hu : u.dropWhile p = u) : v.dropWhile p = v := by
  cases v with
  | nil => simp
  | cons a t =>
    obtain ⟨w, hw⟩ := hvu
    subst hw
    by_cases h : p a
    · exfalso
      rw [List.cons_append, List.dropWhile_cons, if_pos h] at hu
      have hsub : (List.dropWhile p (t ++ w)).Sublist (t ++ w) :=
        (List.dropWhile_suffix p).sublist
      have hlen := hsub.length_le
      rw [hu] at hlen
      simp at hlen
    · simp [List.dropWhile_cons, h]

/-- Go `strings.TrimSpace` is idempotent. -/
theorem trimSpace_idem (s : Str) : trimSpace (trimSpace s) = trimSpace s := by
  unfold trimSpace
  have h1 : (List.rdropWhile isSpaceGo (s.dropWhile isSpaceGo)).dropWhile isSpaceGo
      = List.rdropWhile isSpaceGo (s.dropWhile isSpaceGo) :=
    dropWhile_eq_self_of_isPrefix (List.rdropWhile_prefix _ _)
      (List.dropWhile_idempotent _ _)
  rw [h1, List.rdropWhile_idempotent]

/-- Trimming never lengthens a string. -/
theorem trimSpace_length_le (s : Str) : (trimSpace s).length ≤ s.length := by
  unfold trimSpace
  calc (List.rdropWhile isSpaceGo (s.dropWhile isSpaceGo)).length
      ≤ (s.dropWhile isSpaceGo).length :=
        ((List.rdropWhile_prefix _ _).sublist).length_le
    _ ≤ s.length := ((List.dropWhile_suffix _).sublist).length_le

/-- Counterexample for C9 as stated: `stableGenerationLanguage` does not
leave every value other than "Telugu" unchanged — the distinct value
"TELUGU" is also mapped to "English". -/
theorem c9_counterexample :
    stableGenerationLanguage (strL "TELUGU") = strL "English"
      ∧ strL "TELUGU" ≠ strL "Telugu"
      ∧ stableGenerationLanguage (strL "TELUGU") ≠ strL "TELUGU" := by
  refine ⟨by decide, by decide, by decide⟩

/-- C9 (amended): language normalization is total with range
{"Telugu", "English"}; it returns "Telugu" exactly under the claimed
conditions; `stableGenerationLanguage` maps any value that case-insensitively
(after trimming) equals "Telugu" to "English" and leaves all other values
unchanged; hence the generation language in `RunPhaseOne` is always
"English" and the translation branch condition
(output ≠ generation language) holds iff the output language is "Telugu". -/
theorem c9_language_normalization (requested text lang : Str) :
    (normalizeOutputLanguage requested text = strL "Telugu"
      ∨ normalizeOutputLanguage requested text = strL "English")
    ∧ (normalizeOutputLanguage requested text = strL "Telugu"
        ↔ (toLowerL (trimSpace requested) = strL "te"
            ∨ toLowerL (trimSpace requested) = strL "telugu"
            ∨ toLowerL (trimSpace requested) = strL "తెలుగు"
            ∨ (¬ (toLowerL (trimSpace requested) = strL "en"
                  ∨ toLowerL (trimSpace requested) = strL "english")
                ∧ containsTeluguScript text = true)))
    ∧ (eqFold (trimSpace lang) (strL "Telugu") = true →
        stableGenerationLanguage lang = strL "English")
    ∧ (eqFold (trimSpace lang) (strL "Telugu") = false →
        stableGenerationLanguage lang = lang)
    ∧ stableGenerationLanguage (normalizeOutputLanguage requested text) = strL "English"
    ∧ ((normalizeOutputLanguage requested text
          ≠ stableGenerationLanguage (normalizeOutputLanguage requested text))
        ↔ normalizeOutputLanguage requested text = strL "Telugu") := by
  have hTel : toLowerL (trimSpace requested) = strL "te"
      ∨ toLowerL (trimSpace requested) = strL "telugu"
      ∨ toLowerL (trimSpace requested) = strL "తెలుగు" →
      normalizeOutputLanguage requested text = strL "Telugu" := by
    intro h1
    simp only [normalizeOutputLanguage]
    rw [if_pos h1]
  have hEng : ¬ (toLowerL (trimSpace requested) = strL "te"
      ∨ toLowerL (trimSpace requested) = strL "telugu"
      ∨ toLowerL (trimSpace requested) = strL "తెలుగు") →
      (toLowerL (trimSpace requested) = strL "en"
        ∨ toLowerL (trimSpace requested) = strL "english") →
      normalizeOutputLanguage requested text = strL "English" := by
    intro h1 h2
    simp only [normalizeOutputLanguage]
    rw [if_neg h1, if_pos h2]
  have hDef : ¬ (toLowerL (trimSpace requested) = strL "te"
      ∨ toLowerL (trimSpace requested) = strL "telugu"
      ∨ toLowerL (trimSpace requested) = strL "తెలుగు") →
      ¬ (toLowerL (trimSpace requested) = strL "en"
        ∨ toLowerL (trimSpace requested) = strL "english") →
      normalizeOutputLanguage requested text
        = (if containsTeluguScript text then strL "Telugu" else strL "English") := by
    intro h1 h2
    simp only [normalizeOutputLanguage]
    rw [if_neg h1, if_neg h2]
  have hrange : normalizeOutputLanguage requested text = strL "Telugu"
      ∨ normalizeOutputLanguage requested text = strL "English" := by
    by_cases h1 : toLowerL (trimSpace requested) = strL "te"
        ∨ toLowerL (trimSpace requested) = strL "telugu"
        ∨ toLowerL (trimSpace requested) = strL "తెలుగు"
    · exact Or.inl (hTel h1)
    · by_cases h2 : toLowerL (trimSpace requested) = strL "en"
          ∨ toLowerL (trimSpace requested) = strL "english"
      · exact Or.inr (hEng h1 h2)
      · rw [hDef h1 h2]
        by_cases h3 : containsTeluguScript text
        · exact Or.inl (by rw [if_pos h3])
        · exact Or.inr (by rw [if_neg h3])
  have hstable : stableGenerationLanguage (normalizeOutputLanguage requested text)
      = strL "English" := by
    rcases hrange with h | h <;> rw [h] <;> decide
  refine ⟨hrange, ?_, ?_, ?_, hstable, ?_⟩
  · constructor
    · intro h
      by_cases h1 : toLowerL (trimSpace requested) = strL "te"
          ∨ toLowerL (trimSpace requested) = strL "telugu"
          ∨ toLowerL (trimSpace requested) = strL "తెలుగు"
      · rcases h1 with h1 | h1 | h1
        · exact Or.inl h1
        · exact Or.inr (Or.inl h1)
        · exact Or.inr (Or.inr (Or.inl h1))
      · by_cases h2 : toLowerL (trimSpace requested) = strL "en"
            ∨ toLowerL (trimSpace requested) = strL "english"
        · exact absurd (hEng h1 h2 ▸ h) (by decide)
        · by_cases h3 : containsTeluguScript text
          · exact Or.inr (Or.inr (Or.inr ⟨h2, h3⟩))
          · rw [hDef h1 h2, if_neg h3] at h
            exact absurd h (by decide)
    · intro h
      rcases h with h | h | h | h
      · exact hTel (Or.inl h)
      · exact hTel (Or.inr (Or.inl h))
      · exact hTel (Or.inr (Or.inr h))
      · obtain ⟨h2, h3⟩ := h
        by_cases h1 : toLowerL (trimSpace requested) = strL "te"
            ∨ toLowerL (trimSpace requested) = strL "telugu"
            ∨ toLowerL (trimSpace requested) = strL "తెలుగు"
        · exact hTel h1
        · rw [hDef h1 h2, if_pos h3]
  · intro h
    simp [stableGenerationLanguage, h]
  · intro h
    simp [stableGenerationLanguage, h]
  · rw [hstable]
    rcases hrange with h | h <;> rw [h] <;> decide

/-- Witness for C9 at concrete inputs: request "TE" with Telugu-script text
normalizes to "Telugu", and trimming plus case-folding sends "Telugu" to
"English" in `stableGenerationLanguage`. -/
theorem c9_language_normalization_witness :
    eqFold (trimSpace (strL " Telugu ")) (strL "Telugu") = true
      ∧ stableGenerationLanguage (strL " Telugu ") = strL "English" :=
  ⟨by decide,
    (c9_language_normalization (strL "TE") (strL "వార్త") (strL " Telugu ")).2.2.1
      (by decide)⟩

/-- Structure of `shrinkPromptInput` on trimmed inputs longer than 900
runes: the result is the trim of a prefix of at least 900 and strictly fewer
runes. -/
theorem shrinkPromptInput_spec (text : Str) (h : 900 < (trimSpace text).length) :
    ∃ n, 900 ≤ n ∧ n < (trimSpace text).length
      ∧ shrinkPromptInput text = trimSpace ((trimSpace text).take n) := by
  have hL : ¬ (trimSpace text).length ≤ 900 := by omega
  simp only [shrinkPromptInput]
  rw [if_neg hL]
  set L := (trimSpace text).length with hLdef
  set n0 := L * 72 / 100 with hn0
  set n1 := if n0 < 900 then 900 else n0 with hn1
  set n2 := if n1 ≥ L then L - 1 else n1 with hn2
  have hb : 900 ≤ n2 ∧ n2 < L := by
    rw [hn2, hn1, hn0]
    split_ifs <;> constructor <;> omega
  have h0 : ¬ (n2 = 0) := by omega
  rw [if_neg h0]
  exact ⟨n2, hb.1, hb.2, rfl⟩

/-- `shrinkPromptInput` returns inputs whose trim has at most 900 runes
unchanged up to trimming. -/
theorem shrinkPromptInput_eq_of_le (text : Str)
    (h : (trimSpace text).length ≤ 900) : shrinkPromptInput text = trimSpace text := by
  simp only [shrinkPromptInput]
  rw [if_pos h]

/-- `shrinkPromptInput` strictly decreases the rune count of any input
longer than 900 runes. -/
theorem shrinkPromptInput_lt (text : Str) (h : 900 < text.length) :
    (shrinkPromptInput text).length < text.length := by
  by_cases hr : (trimSpace text).length ≤ 900
  · rw [shrinkPromptInput_eq_of_le text hr]
    have := trimSpace_length_le text
    omega
  · push_neg at hr
    obtain ⟨n, hn900, hnlt, heq⟩ := shrinkPromptInput_spec text hr
    rw [heq]
    have h1 := trimSpace_length_le ((trimSpace text).take n)
    have h2 : ((trimSpace text).take n).length ≤ n := by
      simp [List.length_take]
    have h3 := trimSpace_length_le text
    omega

/-- The extract-facts loop makes at most `fuel` attempts. -/
theorem extractFactsLoop_trace_length (d : Str → Except Str (List Str))
    (p : Str → Option (List (Str × JValue))) (o : Nat → Str → Except GoErr Str) :
    ∀ fuel att cur last, (extractFactsLoop d p o fuel att cur last).2.length ≤ fuel := by
  intro fuel
  induction fuel with
  | zero =>
    intro att cur last
    simp [extractFactsLoop]
  | succ n ih =>
    intro att cur last
    simp only [extractFactsLoop]
    cases ho : o att cur with
    | ok raw => simp
    | error e =>
      dsimp only
      by_cases hlarge : isRequestTooLargeError e
      · rw [if_neg (by simp [hlarge])]
        by_cases hsh : shrinkPromptInput cur = cur
        · rw [if_pos hsh]
          simp
        · rw [if_neg hsh]
          simp only [List.length_cons]
          have := ih (att + 1) (shrinkPromptInput cur) (some e)
          omega
      · rw [if_pos (by simp [hlarge])]
        simp

/-- The extract-facts loop's trace is empty or starts with the current
input. -/
theorem extractFactsLoop_head (d : Str → Except Str (List Str))
    (p : Str → Option (List (Str × JValue))) (o : Nat → Str → Except GoErr Str)
    (fuel att : Nat) (cur : Str) (last : Option GoErr) :
    (extractFactsLoop d p o fuel att cur last).2 = []
      ∨ ∃ t, (extractFactsLoop d p o fuel att cur last).2 = cur :: t := by
  cases fuel with
  | zero => exact Or.inl rfl
  | succ n =>
    simp only [extractFactsLoop]
    cases ho : o att cur with
    | ok raw => exact Or.inr ⟨[], rfl⟩
    | error e =>
      dsimp only
      by_cases hlarge : isRequestTooLargeError e
      · rw [if_neg (by simp [hlarge])]
        by_cases hsh : shrinkPromptInput cur = cur
        · rw [if_pos hsh]
          exact Or.inr ⟨[], rfl⟩
        · rw [if_neg hsh]
          exact Or.inr ⟨_, rfl⟩
      · rw [if_pos (by simp [hlarge])]
        exact Or.inr ⟨[], rfl⟩

/-- Each successive attempt of the extract-facts loop runs on the shrink of
the previous attempt's input. -/
theorem extractFactsLoop_chain (d : Str → Except Str (List Str))
    (p : Str → Option (List (Str × JValue))) (o : Nat → Str → Except GoErr Str) :
    ∀ fuel att cur last, List.Chain' (fun a b => b = shrinkPromptInput a)
      (extractFactsLoop d p o fuel att cur last).2 := by
  intro fuel
  induction fuel with
  | zero =>
    intro att cur last
    simp [extractFactsLoop]
  | succ n ih =>
    intro att cur last
    simp only [extractFactsLoop]
    cases ho : o att cur with
    | ok raw => simp
    | error e =>
      dsimp only
      by_cases hlarge : isRequestTooLargeError e
      · rw [if_neg (by simp [hlarge])]
        by_cases hsh : shrinkPromptInput cur = cur
        · rw [if_pos hsh]
          simp
        · rw [if_neg hsh]
          simp only
          rw [List.chain'_cons']
          refine ⟨?_, ih (att + 1) (shrinkPromptInput cur) (some e)⟩
          intro y hy
          rcases extractFactsLoop_head d p o n (att + 1) (shrinkPromptInput cur) (some e)
              with hnil | ⟨t, ht⟩
          · rw [hnil] at hy
            simp at hy
          · rw [ht] at hy
            simp at hy
            rw [hy]
      · rw [if_pos (by simp [hlarge])]
        simp

/-- C5: `ExtractFacts` makes at most 4 attempts; every retry input is the
shrink of the previous one; shrinking takes the trim of a prefix of at least
900 runes (about 72% of the length) and strictly decreases the rune count of
inputs over 900 runes; an error that is not a request-too-large error is
returned unchanged after a single attempt, and so is any error once
shrinking can make no progress (trimmed input of at most 900 runes). -/
theorem c5_extract_facts_shrink_retry (hk : Bool) (d : Str → Except Str (List Str))
    (p : Str → Option (List (Str × JValue))) (o : Nat → Str → Except GoErr Str)
    (text : Str) (e : GoErr) :
    ((ExtractFacts hk d p o text).2.length ≤ 4)
    ∧ List.Chain' (fun a b => b = shrinkPromptInput a) (ExtractFacts hk d p o text).2
    ∧ (900 < text.length → (shrinkPromptInput text).length < text.length)
    ∧ (900 < (trimSpace text).length →
        ∃ n, 900 ≤ n ∧ n < (trimSpace text).length
          ∧ shrinkPromptInput text = trimSpace ((trimSpace text).take n))
    ∧ (trimSpace text ≠ [] → hk = true →
        o 1 (trimSpace text) = .error e → isRequestTooLargeError e = false →
        ExtractFacts hk d p o text = (.error e, [trimSpace text]))
    ∧ (trimSpace text ≠ [] → hk = true → (trimSpace text).length ≤ 900 →
        o 1 (trimSpace text) = .error e →
        ExtractFacts hk d p o text = (.error e, [trimSpace text])) := by
  have htrace : (ExtractFacts hk d p o text).2 = []
      ∨ (ExtractFacts hk d p o text).2
        = (extractFactsLoop d p o 4 1 (trimSpace text) none).2 := by
    simp only [ExtractFacts]
    by_cases h1 : trimSpace text = []
    · rw [if_pos h1]
      exact Or.inl rfl
    · rw [if_neg h1]
      cases hk with
      | false =>
        rw [if_pos (by simp)]
        exact Or.inl rfl
      | true =>
        rw [if_neg (by simp)]
        exact Or.inr rfl
  refine ⟨?_, ?_, shrinkPromptInput_lt text, shrinkPromptInput_spec text, ?_, ?_⟩
  · rcases htrace with h | h <;> rw [h]
    · simp
    · exact extractFactsLoop_trace_length d p o 4 1 (trimSpace text) none
  · rcases htrace with h | h <;> rw [h]
    · simp
    · exact extractFactsLoop_chain d p o 4 1 (trimSpace text) none
  · intro hne hkey ho hlarge
    simp only [ExtractFacts]
    rw [if_neg hne, hkey, if_neg (by simp)]
    simp only [extractFactsLoop]
    rw [ho]
    dsimp only
    rw [if_pos (by simp [hlarge])]
  · intro hne hkey hle ho
    simp only [ExtractFacts]
    rw [if_neg hne, hkey, if_neg (by simp)]
    simp only [extractFactsLoop]
    rw [ho]
    dsimp only
    by_cases hlarge : isRequestTooLargeError e
    · rw [if_neg (by simp [hlarge])]
      have hshrink : shrinkPromptInput (trimSpace text) = trimSpace text := by
        rw [shrinkPromptInput_eq_of_le]
        · exact trimSpace_idem text
        · rw [trimSpace_idem text]
          exact hle
      rw [if_pos hshrink]
    · rw [if_pos (by simp [hlarge])]

/-- Elements already emitted never carry a key from `seen`. -/
theorem dedupeAux_notin_seen (vs : List Str) :
    ∀ seen, ∀ y ∈ dedupeAux seen vs, toLowerL y ∉ seen := by
  induction vs with
  | nil =>
    intro seen y hy
    simp [dedupeAux] at hy
  | cons v rest ih =>
    intro seen y hy
    simp only [dedupeAux] at hy
    by_cases h1 : trimSpace v = []
    · rw [if_pos h1] at hy
      exact ih seen y hy
    · rw [if_neg h1] at hy
      by_cases h2 : toLowerL (trimSpace v) ∈ seen
      · rw [if_pos h2] at hy
        exact ih seen y hy
      · rw [if_neg h2] at hy
        rcases List.mem_cons.mp hy with hy | hy
        · rw [hy]
          exact h2
        · intro hmem
          exact ih (toLowerL (trimSpace v) :: seen) y hy (List.mem_cons_of_mem _ hmem)

/-- The dedupe loop emits pairwise case-insensitively distinct elements. -/
theorem dedupeAux_pairwise (vs : List Str) :
    ∀ seen, (dedupeAux seen vs).Pairwise (fun a b => toLowerL a ≠ toLowerL b) := by
  induction vs with
  | nil =>
    intro seen
    simp [dedupeAux]
  | cons v rest ih =>
    intro seen
    simp only [dedupeAux]
    by_cases h1 : trimSpace v = []
    · rw [if_pos h1]
      exact ih seen
    · rw [if_neg h1]
      by_cases h2 : toLowerL (trimSpace v) ∈ seen
      · rw [if_pos h2]
        exact ih seen
      · rw [if_neg h2]
        refine List.Pairwise.cons ?_ (ih (toLowerL (trimSpace v) :: seen))
        intro b hb hcontr
        have := dedupeAux_notin_seen rest (toLowerL (trimSpace v) :: seen) b hb
        exact this (by rw [← hcontr]; exact List.mem_cons_self _ _)

/-- The dedupe loop output is a subsequence of the trimmed, non-empty
elements in their original order. -/
theorem dedupeAux_sublist (vs : List Str) :
    ∀ seen, (dedupeAux seen vs).Sublist
      ((vs.map trimSpace).filter (fun c => !c.isEmpty)) := by
  induction vs with
  | nil =>
    intro seen
    simp [dedupeAux]
  | cons v rest ih =>
    intro seen
    simp only [dedupeAux, List.map_cons, List.filter_cons]
    by_cases h1 : trimSpace v = []
    · rw [if_pos h1]
      have : (trimSpace v).isEmpty = true := by simp [h1]
      simp only [this, Bool.not_true, if_neg (by simp : ¬ (false = true))]
      exact ih seen
    · rw [if_neg h1]
      have hne : (!(trimSpace v).isEmpty) = true := by
        simp [List.isEmpty_iff, h1]
      rw [if_pos hne]
      by_cases h2 : toLowerL (trimSpace v) ∈ seen
      · rw [if_pos h2]
        exact (ih seen).cons _
      · rw [if_neg h2]
        exact (ih (toLowerL (trimSpace v) :: seen)).cons₂ _

/-- Every input with a non-empty trim has a case-insensitive representative
in the dedupe loop output (unless its key was already seen). -/
theorem dedupeAux_covers (vs : List Str) :
    ∀ seen, ∀ x ∈ vs, trimSpace x ≠ [] →
      toLowerL (trimSpace x) ∈ seen
        ∨ ∃ y ∈ dedupeAux seen vs, toLowerL y = toLowerL (trimSpace x) := by
  induction vs with
  | nil =>
    intro seen x hx
    simp at hx
  | cons v rest ih =>
    intro seen x hx hxne
    simp only [dedupeAux]
    rcases List.mem_cons.mp hx with hx | hx
    · subst hx
      rw [if_neg hxne]
      by_cases h2 : toLowerL (trimSpace x) ∈ seen
      · exact Or.inl h2
      · rw [if_neg h2]
        exact Or.inr ⟨trimSpace x, List.mem_cons_self _ _, rfl⟩
    · by_cases h1 : trimSpace v = []
      · rw [if_pos h1]
        exact ih seen x hx hxne
      · rw [if_neg h1]
        by_cases h2 : toLowerL (trimSpace v) ∈ seen
        · rw [if_pos h2]
          exact ih seen x hx hxne
        · rw [if_neg h2]
          rcases ih (toLowerL (trimSpace v) :: seen) x hx hxne with hmem | ⟨y, hy, hyeq⟩
          · rcases List.mem_cons.mp hmem with hk | hk
            · exact Or.inr ⟨trimSpace v, List.mem_cons_self _ _, hk.symm⟩
            · exact Or.inl hk
          · exact Or.inr ⟨y, List.mem_cons_of_mem _ hy, hyeq⟩

/-- `limitListItems` returns a prefix. -/
theorem limitListItems_isPrefixOfInput (xs : List Str) (m : Int) :
    (limitListItems xs m) <+: xs := by
  unfold limitListItems
  split_ifs with h
  · exact List.prefix_rfl
  · exact List.take_prefix _ _

/-- For a positive cap, `limitListItems` returns at most that many items. -/
theorem limitListItems_length_le (xs : List Str) (m : Int) (hm : 0 < m) :
    ((limitListItems xs m).length : Int) ≤ m := by
  unfold limitListItems
  split_ifs with h
  · rcases h with h | h
    · omega
    · exact h
  · push_neg at h
    simp only [List.length_take]
    omega

/-- A successful `ExtractFacts` result is the output of `dedupeAndTrim`. -/
theorem extractFactsLoop_ok_dedupe (d : Str → Except Str (List Str))
    (p : Str → Option (List (Str × JValue))) (o : Nat → Str → Except GoErr Str) :
    ∀ fuel att cur last l, (extractFactsLoop d p o fuel att cur last).1 = .ok l →
      ∃ src, l = dedupeAndTrim src := by
  intro fuel
  induction fuel with
  | zero =>
    intro att cur last l h
    simp only [extractFactsLoop] at h
    cases last <;> simp at h
  | succ n ih =>
    intro att cur last l h
    simp only [extractFactsLoop] at h
    cases ho : o att cur with
    | ok raw =>
      rw [ho] at h
      dsimp only at h
      cases hd : d raw with
      | error e =>
        rw [hd] at h
        simp at h
      | ok fs =>
        rw [hd] at h
        dsimp only at h
        by_cases hded : dedupeAndTrim (if fs = [] then scanArrayField p raw (strL "facts") else fs) = []
        · rw [if_pos hded] at h
          simp at h
        · rw [if_neg hded] at h
          simp only [Except.ok.injEq] at h
          exact ⟨_, h.symm⟩
    | error e =>
      rw [ho] at h
      dsimp only at h
      by_cases hlarge : isRequestTooLargeError e
      · rw [if_neg (by simp [hlarge])] at h
        by_cases hsh : shrinkPromptInput cur = cur
        · rw [if_pos hsh] at h
          simp at h
        · rw [if_neg hsh] at h
          exact ih (att + 1) (shrinkPromptInput cur) (some e) l h
      · rw [if_pos (by simp [hlarge])] at h
        simp at h

/-- C7: `dedupeAndTrim` trims every element, drops empties, keeps only the
first occurrence among case-insensitive duplicates preserving order; every
successful facts/gaps stage result is a `dedupeAndTrim` output, and the
headline/strapline stages return a prefix of the deduplicated list of at
most 5 resp. 4 items. -/
theorem c7_dedupe_and_caps (xs : List Str) (hk : Bool)
    (dF dG dH dS : Str → Except Str (List Str))
    (p : Str → Option (List (Str × JValue)))
    (o : Nat → Str → Except GoErr Str) (og oh os : Except GoErr Str)
    (text : Str) (facts gaps : List Str) :
    (∀ y ∈ dedupeAndTrim xs, y ≠ [] ∧ ∃ x ∈ xs, y = trimSpace x)
    ∧ (dedupeAndTrim xs).Pairwise (fun a b => toLowerL a ≠ toLowerL b)
    ∧ (dedupeAndTrim xs).Sublist ((xs.map trimSpace).filter (fun c => !c.isEmpty))
    ∧ (∀ x ∈ xs, trimSpace x ≠ [] →
        ∃ y ∈ dedupeAndTrim xs, toLowerL y = toLowerL (trimSpace x))
    ∧ (∀ l, (ExtractFacts hk dF p o text).1 = .ok l → ∃ src, l = dedupeAndTrim src)
    ∧ (∀ l, GenerateGapQuestions hk dG p og facts = .ok l → ∃ src, l = dedupeAndTrim src)
    ∧ (∀ l, GenerateHeadlineOptions hk dH p oh facts = .ok l →
        ∃ src, l = limitListItems (dedupeAndTrim src) 5
          ∧ ((l.length : Int) ≤ 5) ∧ l <+: dedupeAndTrim src)
    ∧ (∀ l, GenerateStraplineOptions hk dS p os facts gaps = .ok l →
        ∃ src, l = limitListItems (dedupeAndTrim src) 4
          ∧ ((l.length : Int) ≤ 4) ∧ l <+: dedupeAndTrim src) := by
  have hsub : (dedupeAndTrim xs).Sublist
      ((xs.map trimSpace).filter (fun c => !c.isEmpty)) := dedupeAux_sublist xs []
  refine ⟨?_, dedupeAux_pairwise xs [], hsub, ?_, ?_, ?_, ?_, ?_⟩
  · intro y hy
    have hmem := hsub.subset hy
    rw [List.mem_filter] at hmem
    obtain ⟨hmap, hne⟩ := hmem
    obtain ⟨x, hx, hxy⟩ := List.mem_map.mp hmap
    refine ⟨?_, x, hx, hxy.symm⟩
    intro hnil
    rw [hnil] at hne
    simp at hne
  · intro x hx hxne
    rcases dedupeAux_covers xs [] x hx hxne with hmem | h
    · simp at hmem
    · exact h
  · intro l h
    simp only [ExtractFacts] at h
    by_cases h1 : trimSpace text = []
    · rw [if_pos h1] at h
      simp at h
    · rw [if_neg h1] at h
      cases hk with
      | false =>
        rw [if_pos (by simp)] at h
        simp at h
      | true =>
        rw [if_neg (by simp)] at h
        exact extractFactsLoop_ok_dedupe dF p o 4 1 (trimSpace text) none l h
  · intro l h
    simp only [GenerateGapQuestions] at h
    cases hk with
    | false =>
      rw [if_pos (by simp)] at h
      simp at h
    | true =>
      rw [if_neg (by simp)] at h
      by_cases h1 : facts = []
      · rw [if_pos h1] at h
        simp at h
      · rw [if_neg h1] at h
        cases hog : og with
        | error e =>
          rw [hog] at h
          simp at h
        | ok raw =>
          rw [hog] at h
          dsimp only at h
          cases hd : dG raw with
          | error e =>
            rw [hd] at h
            simp at h
          | ok gs =>
            rw [hd] at h
            dsimp only at h
            by_cases hded : dedupeAndTrim
                (if gs = [] then scanArrayField p raw (strL "gaps") else gs) = []
            · rw [if_pos hded] at h
              simp at h
            · rw [if_neg hded] at h
              simp only [Except.ok.injEq] at h
              exact ⟨_, h.symm⟩
  · intro l h
    simp only [GenerateHeadlineOptions] at h
    cases hk with
    | false =>
      rw [if_pos (by simp)] at h
      simp at h
    | true =>
      rw [if_neg (by simp)] at h
      by_cases h1 : trimSpace (strL "- "
          ++ List.intercalate (strL "\n- ") (dedupeAndTrim facts)) = strL "-"
      · rw [if_pos h1] at h
        simp at h
      · rw [if_neg h1] at h
        cases hoh : oh with
        | error e =>
          rw [hoh] at h
          simp at h
        | ok raw =>
          rw [hoh] at h
          dsimp only at h
          cases hd : dH raw with
          | error e =>
            rw [hd] at h
            simp at h
          | ok hs =>
            rw [hd] at h
            dsimp only at h
            by_cases hded : dedupeAndTrim
                (if hs = [] then scanArrayField p raw (strL "headlines") else hs) = []
            · rw [if_pos hded] at h
              simp at h
            · rw [if_neg hded] at h
              simp only [Except.ok.injEq] at h
              refine ⟨if hs = [] then scanArrayField p raw (strL "headlines") else hs,
                h.symm, ?_, ?_⟩
              · rw [← h]
                exact limitListItems_length_le _ 5 (by norm_num)
              · rw [← h]
                exact limitListItems_isPrefixOfInput _ 5
  · intro l h
    simp only [GenerateStraplineOptions] at h
    cases hk with
    | false =>
      rw [if_pos (by simp)] at h
      simp at h
    | true =>
      rw [if_neg (by simp)] at h
      by_cases h1 : trimSpace (strL "- "
          ++ List.intercalate (strL "\n- ") (dedupeAndTrim facts)) = strL "-"
      · rw [if_pos h1] at h
        simp at h
      · rw [if_neg h1] at h
        cases hos : os with
        | error e =>
          rw [hos] at h
          simp at h
        | ok raw =>
          rw [hos] at h
          dsimp only at h
          cases hd : dS raw with
          | error e =>
            rw [hd] at h
            simp at h
          | ok ss =>
            rw [hd] at h
            dsimp only at h
            by_cases hded : dedupeAndTrim
                (if ss = [] then scanArrayField p raw (strL "straplines") else ss) = []
            · rw [if_pos hded] at h
              simp at h
            · rw [if_neg hded] at h
              simp only [Except.ok.injEq] at h
              refine ⟨if ss = [] then scanArrayField p raw (strL "straplines") else ss,
                h.symm, ?_, ?_⟩
              · rw [← h]
                exact limitListItems_length_le _ 4 (by norm_num)
              · rw [← h]
                exact limitListItems_isPrefixOfInput _ 4

/-- Witness for C7 at concrete inputs: a gap generation returning
duplicates with stray whitespace yields exactly the deduplicated, trimmed
list, which is a `dedupeAndTrim` output. -/
theorem c7_dedupe_and_caps_witness :
    GenerateGapQuestions true (fun _ => .ok [strL " q1", strL "Q1", strL "q2"])
        (fun _ => none) (.ok (strL "x")) [strL "f"]
      = .ok [strL "q1", strL "q2"]
    ∧ ∃ src, [strL "q1", strL "q2"] = dedupeAndTrim src :=
  ⟨rfl,
    ((c7_dedupe_and_caps [] true (fun _ => .ok [strL " q1", strL "Q1", strL "q2"])
      (fun _ => .ok [strL " q1", strL "Q1", strL "q2"])
      (fun _ => .ok []) (fun _ => .ok []) (fun _ => none) (fun _ _ => .ok [])
      (.ok (strL "x")) (.ok (strL "x")) (.ok (strL "x")) (strL "t") [strL "f"]
      []).2.2.2.2.2.1) [strL "q1", strL "q2"] rfl⟩

/-- C6: the field-scanning fallback returns the exact expected key's value
when it yields a non-empty string list; otherwise the value of a key that
matches the expected key case-insensitively after trimming (when one yields
a non-empty list); otherwise, for a one-key object, that single value;
array elements that are not strings or trim to empty are dropped and kept
strings trimmed; and `GenerateStructuredArticle` applies the analogous
`parseFirstStringField` fallback when the decoded article is empty. -/
theorem c6_field_scanning_fallback (payload : List (Str × JValue)) (kv0 : Str × JValue)
    (k : Str) (items : List JValue) (p : Str → Option (List (Str × JValue)))
    (oracle : Except GoErr Str) (decodeArticle : Str → Except Str Str)
    (raw a t : Str) (facts gaps : List Str) :
    (anyToStringSlice (lookupExact payload k) ≠ [] →
      parseFirstStringArrayField payload k = anyToStringSlice (lookupExact payload k))
    ∧ (anyToStringSlice (lookupExact payload k) = [] →
        (∃ kv ∈ payload, eqFold (trimSpace kv.1) k = true
          ∧ anyToStringSlice (some kv.2) ≠ []) →
        ∃ kv ∈ payload, eqFold (trimSpace kv.1) k = true
          ∧ parseFirstStringArrayField payload k = anyToStringSlice (some kv.2)
          ∧ parseFirstStringArrayField payload k ≠ [])
    ∧ (anyToStringSlice (lookupExact payload k) = [] →
        (∀ kv ∈ payload, eqFold (trimSpace kv.1) k = true →
          anyToStringSlice (some kv.2) = []) →
        payload = [kv0] →
        parseFirstStringArrayField payload k = anyToStringSlice (some kv0.2))
    ∧ anyToStringSlice (some (.arr items)) = items.filterMap (fun it =>
        match it with
        | .str s => if trimSpace s = [] then none else some (trimSpace s)
        | _ => none)
    ∧ (anyToString (lookupExact payload k) ≠ [] →
        parseFirstStringField payload k = anyToString (lookupExact payload k))
    ∧ (facts ≠ [] → oracle = .ok raw → decodeArticle raw = .ok a →
        trimSpace a = [] → trimSpace (scanStringField p raw (strL "article")) = t →
        t ≠ [] →
        GenerateStructuredArticle true decodeArticle p oracle facts gaps = .ok t) := by
  refine ⟨?_, ?_, ?_, ?_, ?_, ?_⟩
  · intro h
    simp only [parseFirstStringArrayField]
    rw [if_pos h]
  · intro hempty hex
    simp only [parseFirstStringArrayField]
    rw [if_neg (by simpa using hempty)]
    cases hf : payload.find? (fun kv =>
        eqFold (trimSpace kv.1) k ∧ anyToStringSlice (some kv.2) ≠ []) with
    | none =>
      exfalso
      obtain ⟨kv, hkv, heq, hne⟩ := hex
      have := List.find?_eq_none.mp hf kv hkv
      simp only [decide_eq_true_eq] at this
      exact this ⟨heq, hne⟩
    | some kv =>
      have hpred := List.find?_some hf
      simp only [decide_eq_true_eq] at hpred
      exact ⟨kv, List.mem_of_find?_eq_some hf, hpred.1, rfl, hpred.2⟩
  · intro hempty hall hone
    simp only [parseFirstStringArrayField]
    rw [if_neg (by simpa using hempty)]
    have hf : payload.find? (fun kv =>
        eqFold (trimSpace kv.1) k ∧ anyToStringSlice (some kv.2) ≠ []) = none := by
      rw [List.find?_eq_none]
      intro kv hkv
      simp only [decide_eq_true_eq, not_and]
      intro heq
      simp [hall kv hkv heq]
    rw [hf, hone]
  · simp only [anyToStringSlice]
    have hfun : (fun it : JValue =>
        let tt := anyToStringV it
        if tt = [] then none else some tt)
        = (fun it : JValue =>
          match it with
          | .str s => if trimSpace s = [] then none else some (trimSpace s)
          | _ => none) := by
      funext it
      cases it <;> simp [anyToStringV]
    rw [hfun]
  · intro h
    simp only [parseFirstStringField]
    rw [if_pos h]
  · intro hfacts horacle hdec hta hscan htne
    simp only [GenerateStructuredArticle]
    rw [if_neg (by simp), if_neg hfacts, horacle]
    dsimp only
    rw [hdec]
    dsimp only
    rw [hta]
    rw [if_pos rfl, hscan]
    rw [if_neg htne]

/-- Witness for C6 at concrete inputs: with an empty exact "facts" key, the
scanner falls back to the case-insensitively matching key " FACTS " and
returns its trimmed non-empty strings. -/
theorem c6_field_scanning_fallback_witness :
    (anyToStringSlice (lookupExact
        [(strL "facts", JValue.arr []),
         (strL " FACTS ", JValue.arr [JValue.str (strL " a "), JValue.num 3])]
        (strL "facts")) = []
      ∧ (∃ kv ∈ [(strL "facts", JValue.arr []),
          (strL " FACTS ", JValue.arr [JValue.str (strL " a "), JValue.num 3])],
          eqFold (trimSpace kv.1) (strL "facts") = true
            ∧ anyToStringSlice (some kv.2) ≠ []))
    ∧ ∃ kv ∈ [(strL "facts", JValue.arr []),
        (strL " FACTS ", JValue.arr [JValue.str (strL " a "), JValue.num 3])],
        eqFold (trimSpace kv.1) (strL "facts") = true
          ∧ parseFirstStringArrayField
              [(strL "facts", JValue.arr []),
               (strL " FACTS ", JValue.arr [JValue.str (strL " a "), JValue.num 3])]
              (strL "facts") = anyToStringSlice (some kv.2)
          ∧ parseFirstStringArrayField
              [(strL "facts", JValue.arr []),
               (strL " FACTS ", JValue.arr [JValue.str (strL " a "), JValue.num 3])]
              (strL "facts") ≠ [] :=
  ⟨⟨rfl, ⟨(strL " FACTS ", JValue.arr [JValue.str (strL " a "), JValue.num 3]),
      by simp, by decide, by simp [anyToStringSlice, anyToStringV]; decide⟩⟩,
    (c6_field_scanning_fallback
      [(strL "facts", JValue.arr []),
       (strL " FACTS ", JValue.arr [JValue.str (strL " a "), JValue.num 3])]
      (strL "facts", JValue.null) (strL "facts") [] (fun _ => none) (.ok [])
      (fun _ => .ok []) [] [] [] [] []).2.1 rfl
      ⟨(strL " FACTS ", JValue.arr [JValue.str (strL " a "), JValue.num 3]),
        by simp, by decide, by simp [anyToStringSlice, anyToStringV]; decide⟩⟩

/-- Counterexample for C8 as stated: when the translation response parses to
an empty list (here: empty content), `TranslateList` does not fall back to
per-item `TranslateText` calls — it returns the error "translation returned
empty list", although the parsed length (0) differs from the number of
non-empty input lines (1) and the individual fallback would succeed. -/
theorem c8_counterexample :
    TranslateList true (fun _ => none) (.ok []) (fun _ => .ok (strL "b"))
        [strL "a"] (strL "Telugu")
      = (.error (.plain (strL "translation returned empty list")), true)
    ∧ translateEach true (fun _ => .ok (strL "b")) (strL "Telugu") 0 [strL "a"]
      = .ok [strL "b"]
    ∧ (Except.error (.plain (strL "translation returned empty list"))
        : Except GoErr (List Str)) ≠ .ok [strL "b"] :=
  ⟨rfl, rfl, fun h => Except.noConfusion h⟩

/-- C8 (amended): `parseLineList` strips fences and returns the deduplicated
decoded array for a JSON string-array response; otherwise it splits into
lines, removes leading bullet/number markers, drops blanks and dedupes
case-insensitively; `TranslateList` accepts the parsed list only when its
length equals the number of non-empty input items, falls back to per-item
`TranslateText` translation when the parsed list is non-empty with a
different length, errors when the parsed list is empty, and for English or
an empty item list returns `dedupeAndTrim` of the input without any API
call. -/
theorem c8_translate_line_parsing (dec : Str → Option (List Str))
    (orc : Except GoErr Str) (oe : Nat → Except GoErr Str)
    (items : List Str) (lang content : Str) (l : List Str) :
    (trimSpace (stripCodeFence content) ≠ [] →
      dec (trimSpace (stripCodeFence content)) = some l →
      parseLineList dec content = dedupeAndTrim l)
    ∧ (∃ src, parseLineList dec content = dedupeAndTrim src)
    ∧ (dec (trimSpace (stripCodeFence content)) = none →
        ∀ y ∈ parseLineList dec content,
          y ≠ [] ∧ ∃ line ∈ splitNL (trimSpace (stripCodeFence content)),
            y = trimSpace (stripLeadingListMarker (trimSpace line)))
    ∧ (eqFold (trimSpace lang) (strL "English") = false → items ≠ [] →
        promptLines items ≠ [] →
        orc = .ok content →
        ((parseLineList dec content ≠ [] →
          (parseLineList dec content).length = (promptLines items).length →
          TranslateList true dec orc oe items lang = (.ok (parseLineList dec content), true))
        ∧ (parseLineList dec content ≠ [] →
            (parseLineList dec content).length ≠ (promptLines items).length →
            TranslateList true dec orc oe items lang
              = (translateEach true oe (trimSpace lang) 0 items, true))
        ∧ (parseLineList dec content = [] →
            TranslateList true dec orc oe items lang
              = (.error (.plain (strL "translation returned empty list")), true))))
    ∧ ((eqFold (trimSpace lang) (strL "English") = true ∨ items = []) →
        TranslateList true dec orc oe items lang = (.ok (dedupeAndTrim items), false)) := by
  refine ⟨?_, ?_, ?_, ?_, ?_⟩
  · intro hne hdec
    simp only [parseLineList]
    rw [if_neg hne, hdec]
  · simp only [parseLineList]
    by_cases hne : trimSpace (stripCodeFence content) = []
    · rw [if_pos hne]
      exact ⟨[], rfl⟩
    · rw [if_neg hne]
      cases hdec : dec (trimSpace (stripCodeFence content)) with
      | some l2 => exact ⟨l2, rfl⟩
      | none => exact ⟨_, rfl⟩
  · intro hdec y hy
    simp only [parseLineList] at hy
    by_cases hne : trimSpace (stripCodeFence content) = []
    · rw [if_pos hne] at hy
      simp at hy
    · rw [if_neg hne, hdec] at hy
      have hsub := (dedupeAux_sublist _ []).subset hy
      rw [List.mem_filter] at hsub
      obtain ⟨hmap, hyne⟩ := hsub
      obtain ⟨x, hx, hxy⟩ := List.mem_map.mp hmap
      obtain ⟨line, hline, hfx⟩ := List.mem_filterMap.mp hx
      by_cases hc : trimSpace line = []
      · rw [if_pos hc] at hfx
        exact absurd hfx (by simp)
      · rw [if_neg hc] at hfx
        by_cases hc2 : trimSpace (stripLeadingListMarker (trimSpace line)) = []
        · rw [if_pos hc2] at hfx
          exact absurd hfx (by simp)
        · rw [if_neg hc2] at hfx
          have hxeq : x = trimSpace (stripLeadingListMarker (trimSpace line)) := by
            simpa using hfx.symm
          have hyeq : y = trimSpace (stripLeadingListMarker (trimSpace line)) := by
            rw [← hxy, hxeq, trimSpace_idem]
          refine ⟨?_, line, hline, hyeq⟩
          intro hnil
          rw [hnil] at hyne
          simp at hyne
  · intro hEng hItems hLines horc
    subst horc
    refine ⟨?_, ?_, ?_⟩
    · intro htrne hlen
      simp only [TranslateList]
      rw [if_neg (by simp), if_neg (by simp [hEng, hItems]), if_neg hLines]
      rw [if_neg htrne, if_neg (by simp [hlen])]
    · intro htrne hlen
      simp only [TranslateList]
      rw [if_neg (by simp), if_neg (by simp [hEng, hItems]), if_neg hLines]
      rw [if_neg htrne, if_pos (by simpa using hlen)]
    · intro htr
      simp only [TranslateList]
      rw [if_neg (by simp), if_neg (by simp [hEng, hItems]), if_neg hLines]
      rw [if_pos htr]
  · intro h
    simp only [TranslateList]
    rw [if_neg (by simp), if_pos h]

/-- Witness for C8 at concrete inputs: a two-line plain-text response for a
single non-empty item mismatches the line count, so `TranslateList` falls
back to translating each item individually. -/
theorem c8_translate_line_parsing_witness :
    (eqFold (trimSpace (strL "Telugu")) (strL "English") = false
      ∧ parseLineList (fun _ => none) (strL "x\ny") ≠ []
      ∧ (parseLineList (fun _ => none) (strL "x\ny")).length
          ≠ (promptLines [strL "a"]).length)
    ∧ TranslateList true (fun _ => none) (.ok (strL "x\ny")) (fun _ => .ok (strL "శ"))
        [strL "a"] (strL "Telugu")
      = (translateEach true (fun _ => .ok (strL "శ")) (trimSpace (strL "Telugu"))
          0 [strL "a"], true) :=
  ⟨⟨by decide, by decide, by decide⟩,
    ((c8_translate_line_parsing (fun _ => none) (.ok (strL "x\ny"))
      (fun _ => .ok (strL "శ")) [strL "a"] (strL "Telugu") (strL "x\ny")
      []).2.2.2.1 (by decide) (by decide) (by decide) rfl).2.1
      (by decide) (by decide)⟩

/-- `dropWhile` keeps a replicate of a non-matching element intact. -/
theorem dropWhile_replicate_of_neg {α : Type} {p : α → Bool} (n : Nat) (a : α)
    (h : p a = false) : (List.replicate n a).dropWhile p = List.replicate n a := by
  cases n with
  | zero => simp
  | succ m =>
    rw [List.replicate_succ, List.dropWhile_cons]
    simp [h]

/-- `trimSpace` keeps a replicate of a non-space rune intact. -/
theorem trimSpace_replicate_of_neg (n : Nat) (a : Char) (h : isSpaceGo a = false) :
    trimSpace (List.replicate n a) = List.replicate n a := by
  unfold trimSpace List.rdropWhile
  rw [dropWhile_replicate_of_neg n a h, List.reverse_replicate,
    dropWhile_replicate_of_neg n a h, List.reverse_replicate]

/-- `compactLLMInput` cuts a 12001-rune input down to 12000 runes. -/
theorem compactLLMInput_replicate_12001 :
    compactLLMInput (List.replicate 12001 'a') = List.replicate 12000 'a' := by
  unfold compactLLMInput
  rw [trimSpace_replicate_of_neg 12001 'a' (by decide)]
  have h1 : ¬ (List.replicate 12001 'a' = ([] : Str)) := by
    intro hcontra
    have hlen := congrArg List.length hcontra
    simp only [List.length_replicate, List.length_nil] at hlen
    omega
  have h2 : ¬ ((List.replicate 12001 'a').length ≤ 12000) := by
    simp only [List.length_replicate]
    omega
  rw [if_neg h1, if_neg h2, List.take_replicate]
  norm_num

/-- Counterexample for C1 as stated: `RunPhaseOne` does not call
`ExtractFacts` on the resolved input text — it calls it on the compacted
input (truncated to 12000 runes).  With an extract stage that echoes its
input and a 12001-rune resolved text, the pipeline succeeds but the facts
are the compacted input, which differs from the resolved text. -/
theorem c1_counterexample :
    (runPhaseOne true none (.ok (List.replicate 12001 'a', []))
        (fun x _ => .ok [x]) (fun _ _ _ => .ok [strL "g"]) (fun _ _ _ => .ok (strL "p"))
        (fun l _ => .ok l) (fun tx _ => .ok tx) (fun _ _ _ _ _ _ => .ok 1)
        (strL "en") []).2 = none
    ∧ (runPhaseOne true none (.ok (List.replicate 12001 'a', []))
        (fun x _ => .ok [x]) (fun _ _ _ => .ok [strL "g"]) (fun _ _ _ => .ok (strL "p"))
        (fun l _ => .ok l) (fun tx _ => .ok tx) (fun _ _ _ _ _ _ => .ok 1)
        (strL "en") []).1.facts = [compactLLMInput (List.replicate 12001 'a')]
    ∧ compactLLMInput (List.replicate 12001 'a') ≠ List.replicate 12001 'a' := by
  refine ⟨rfl, rfl, ?_⟩
  rw [compactLLMInput_replicate_12001]
  intro hcontra
  have hlen := congrArg List.length hcontra
  simp only [List.length_replicate] at hlen
  omega

/-- C1 (amended): `RunPhaseOne` threads the stages in order — `ExtractFacts`
on the compacted resolved input (trimmed, truncated to 12000 runes), then
`GenerateGapQuestions` with the returned facts, then
`GenerateStructuredArticle` with the facts and gaps, then (only when the
output language differs from the generation language) the translation of
facts, gaps and article; any stage error stops the pipeline and is returned
with the zero `PhaseOneResponse`. -/
theorem c1_phase_one_pipeline
    (ex : Str → Str → Except GoErr (List Str))
    (gg : Str → List Str → Str → Except GoErr (List Str))
    (ga : List Str → List Str → Str → Except GoErr Str)
    (tl : List Str → Str → Except GoErr (List Str))
    (tt : Str → Str → Except GoErr Str)
    (sv : Str → Str → Str → Str → List Str → List Str → Except GoErr Int)
    (inputLanguage category rawText sourceURL : Str)
    (facts gaps facts2 gaps2 : List Str) (articleText article2 : Str)
    (aid : Int) (e : GoErr) :
    (runPhaseOne true none (.error e) ex gg ga tl tt sv inputLanguage category
      = (zeroPhaseOneResponse, some e))
    ∧ (runPhaseOne true (some e) (.ok (rawText, sourceURL)) ex gg ga tl tt sv
        inputLanguage category = (zeroPhaseOneResponse, some e))
    ∧ (ex (compactLLMInput rawText)
          (stableGenerationLanguage (normalizeOutputLanguage inputLanguage rawText))
          = .error e →
        runPhaseOne true none (.ok (rawText, sourceURL)) ex gg ga tl tt sv
          inputLanguage category = (zeroPhaseOneResponse, some e))
    ∧ (ex (compactLLMInput rawText)
          (stableGenerationLanguage (normalizeOutputLanguage inputLanguage rawText))
          = .ok facts →
        gg (compactLLMInput rawText) facts
          (stableGenerationLanguage (normalizeOutputLanguage inputLanguage rawText))
          = .error e →
        runPhaseOne true none (.ok (rawText, sourceURL)) ex gg ga tl tt sv
          inputLanguage category = (zeroPhaseOneResponse, some e))
    ∧ (ex (compactLLMInput rawText)
          (stableGenerationLanguage (normalizeOutputLanguage inputLanguage rawText))
          = .ok facts →
        gg (compactLLMInput rawText) facts
          (stableGenerationLanguage (normalizeOutputLanguage inputLanguage rawText))
          = .ok gaps →
        ga facts gaps
          (stableGenerationLanguage (normalizeOutputLanguage inputLanguage rawText))
          = .error e →
        runPhaseOne true none (.ok (rawText, sourceURL)) ex gg ga tl tt sv
          inputLanguage category = (zeroPhaseOneResponse, some e))
    ∧ (normalizeOutputLanguage inputLanguage rawText
          = stableGenerationLanguage (normalizeOutputLanguage inputLanguage rawText) →
        ex (compactLLMInput rawText)
          (stableGenerationLanguage (normalizeOutputLanguage inputLanguage rawText))
          = .ok facts →
        gg (compactLLMInput rawText) facts
          (stableGenerationLanguage (normalizeOutputLanguage inputLanguage rawText))
          = .ok gaps →
        ga facts gaps
          (stableGenerationLanguage (normalizeOutputLanguage inputLanguage rawText))
          = .ok articleText →
        sv sourceURL rawText articleText category facts gaps = .ok aid →
        runPhaseOne true none (.ok (rawText, sourceURL)) ex gg ga tl tt sv
          inputLanguage category
          = (⟨aid, normalizeOutputLanguage inputLanguage rawText, facts, gaps,
              articleText⟩, none))
    ∧ (normalizeOutputLanguage inputLanguage rawText
          ≠ stableGenerationLanguage (normalizeOutputLanguage inputLanguage rawText) →
        ex (compactLLMInput rawText)
          (stableGenerationLanguage (normalizeOutputLanguage inputLanguage rawText))
          = .ok facts →
        gg (compactLLMInput rawText) facts
          (stableGenerationLanguage (normalizeOutputLanguage inputLanguage rawText))
          = .ok gaps →
        ga facts gaps
          (stableGenerationLanguage (normalizeOutputLanguage inputLanguage rawText))
          = .ok articleText →
        tl facts (normalizeOutputLanguage inputLanguage rawText) = .ok facts2 →
        tl gaps (normalizeOutputLanguage inputLanguage rawText) = .ok gaps2 →
        tt articleText (normalizeOutputLanguage inputLanguage rawText) = .ok article2 →
        sv sourceURL rawText article2 category facts2 gaps2 = .ok aid →
        runPhaseOne true none (.ok (rawText, sourceURL)) ex gg ga tl tt sv
          inputLanguage category
          = (⟨aid, normalizeOutputLanguage inputLanguage rawText, facts2, gaps2,
              article2⟩, none))
    ∧ (normalizeOutputLanguage inputLanguage rawText
          ≠ stableGenerationLanguage (normalizeOutputLanguage inputLanguage rawText) →
        ex (compactLLMInput rawText)
          (stableGenerationLanguage (normalizeOutputLanguage inputLanguage rawText))
          = .ok facts →
        gg (compactLLMInput rawText) facts
          (stableGenerationLanguage (normalizeOutputLanguage inputLanguage rawText))
          = .ok gaps →
        ga facts gaps
          (stableGenerationLanguage (normalizeOutputLanguage inputLanguage rawText))
          = .ok articleText →
        tl facts (normalizeOutputLanguage inputLanguage rawText) = .error e →
        runPhaseOne true none (.ok (rawText, sourceURL)) ex gg ga tl tt sv
          inputLanguage category = (zeroPhaseOneResponse, some e)) := by
  refine ⟨?_, ?_, ?_, ?_, ?_, ?_, ?_, ?_⟩
  · simp [runPhaseOne]
  · simp [runPhaseOne]
  · intro h1
    simp only [runPhaseOne]
    rw [if_neg (by simp)]
    rw [h1]
  · intro h1 h2
    simp only [runPhaseOne]
    rw [if_neg (by simp)]
    rw [h1]
    dsimp only
    rw [h2]
  · intro h1 h2 h3
    simp only [runPhaseOne]
    rw [if_neg (by simp)]
    rw [h1]
    dsimp only
    rw [h2]
    dsimp only
    rw [h3]
  · intro heq h1 h2 h3 h4
    simp only [runPhaseOne]
    rw [if_neg (by simp)]
    rw [h1]
    dsimp only
    rw [h2]
    dsimp only
    rw [h3]
    dsimp only
    rw [if_neg (by simp [← heq]), h4]
  · intro hne h1 h2 h3 h4 h5 h6 h7
    simp only [runPhaseOne]
    rw [if_neg (by simp)]
    rw [h1]
    dsimp only
    rw [h2]
    dsimp only
    rw [h3]
    dsimp only
    rw [if_pos hne, h4]
    dsimp only
    rw [h5]
    dsimp only
    rw [h6]
    dsimp only
    rw [h7]
  · intro hne h1 h2 h3 h4
    simp only [runPhaseOne]
    rw [if_neg (by simp)]
    rw [h1]
    dsimp only
    rw [h2]
    dsimp only
    rw [h3]
    dsimp only
    rw [if_pos hne, h4]

/-- Witness for C1 at concrete inputs: an all-success English run threads
each stage's output into the next and returns the saved article ID. -/
theorem c1_phase_one_pipeline_witness :
    (normalizeOutputLanguage (strL "en") (strL "hi")
        = stableGenerationLanguage (normalizeOutputLanguage (strL "en") (strL "hi")))
    ∧ runPhaseOne true none (.ok (strL "hi", strL "u"))
        (fun _ _ => .ok [strL "f"]) (fun _ _ _ => .ok [strL "g"])
        (fun _ _ _ => .ok (strL "p")) (fun l _ => .ok l) (fun tx _ => .ok tx)
        (fun _ _ _ _ _ _ => .ok 7) (strL "en") (strL "news")
      = (⟨7, normalizeOutputLanguage (strL "en") (strL "hi"), [strL "f"], [strL "g"],
          strL "p"⟩, none) :=
  ⟨by decide,
    (c1_phase_one_pipeline (fun _ _ => .ok [strL "f"]) (fun _ _ _ => .ok [strL "g"])
      (fun _ _ _ => .ok (strL "p")) (fun l _ => .ok l) (fun tx _ => .ok tx)
      (fun _ _ _ _ _ _ => .ok 7) (strL "en") (strL "news") (strL "hi") (strL "u")
      [strL "f"] [strL "g"] [] [] (strL "p") [] 7
      (.plain [])).2.2.2.2.2.1 (by decide) rfl rfl rfl rfl⟩

/-- A successful fact-row insert loop stores exactly the trimmed non-empty
facts, in order. -/
theorem insertFactRows_ok (errf : Nat → Option GoErr) (aid : Int) :
    ∀ facts k rows, insertFactRows errf aid facts k = .ok rows →
      rows = facts.filterMap (fun f =>
        if trimSpace f = [] then none
        else some ⟨aid, trimSpace f, false, true, strL "ai"⟩) := by
  intro facts
  induction facts with
  | nil =>
    intro k rows h
    simp only [insertFactRows, Except.ok.injEq] at h
    simp [← h]
  | cons f rest ih =>
    intro k rows h
    simp only [insertFactRows] at h
    by_cases hc : trimSpace f = []
    · rw [if_pos hc] at h
      simp only [List.filterMap_cons, hc, if_pos rfl]
      exact ih k rows h
    · rw [if_neg hc] at h
      cases he : errf k with
      | some e =>
        rw [he] at h
        simp at h
      | none =>
        rw [he] at h
        cases hr : insertFactRows errf aid rest (k + 1) with
        | error e2 =>
          rw [hr] at h
          simp at h
        | ok rows2 =>
          rw [hr] at h
          simp only [Except.ok.injEq] at h
          rw [← h]
          simp only [List.filterMap_cons, if_neg hc]
          rw [ih (k + 1) rows2 hr]

/-- A successful gap-row insert loop stores exactly the trimmed non-empty
gaps, in order. -/
theorem insertGapRows_ok (errg : Nat → Option GoErr) (aid : Int) :
    ∀ gaps k rows, insertGapRows errg aid gaps k = .ok rows →
      rows = gaps.filterMap (fun g =>
        if trimSpace g = [] then none
        else some ⟨aid, trimSpace g, true, false⟩) := by
  intro gaps
  induction gaps with
  | nil =>
    intro k rows h
    simp only [insertGapRows, Except.ok.injEq] at h
    simp [← h]
  | cons g rest ih =>
    intro k rows h
    simp only [insertGapRows] at h
    by_cases hc : trimSpace g = []
    · rw [if_pos hc] at h
      simp only [List.filterMap_cons, hc, if_pos rfl]
      exact ih k rows h
    · rw [if_neg hc] at h
      cases he : errg k with
      | some e =>
        rw [he] at h
        simp at h
      | none =>
        rw [he] at h
        cases hr : insertGapRows errg aid rest (k + 1) with
        | error e2 =>
          rw [hr] at h
          simp at h
        | ok rows2 =>
          rw [hr] at h
          simp only [Except.ok.injEq] at h
          rw [← h]
          simp only [List.filterMap_cons, if_neg hc]
          rw [ih (k + 1) rows2 hr]

/-- C10: `savePhaseOne` is atomic — on any error the store is unchanged and
article ID 0 is returned with the error; on success the article row and
exactly the trimmed non-empty fact and gap rows (whitespace-only items
skipped) are all persisted together. -/
theorem c10_save_phase_one_atomic (s : DBState) (fx : SaveFx)
    (sourceURL rawText articleText category : Str) (facts gaps : List Str) :
    (∀ e, (savePhaseOne s fx sourceURL rawText articleText category facts gaps).2.2
        = some e →
      (savePhaseOne s fx sourceURL rawText articleText category facts gaps).1 = s
        ∧ (savePhaseOne s fx sourceURL rawText articleText category facts gaps).2.1 = 0)
    ∧ ((savePhaseOne s fx sourceURL rawText articleText category facts gaps).2.2 = none →
        ∃ s1 tid,
          resolveTopicID s fx category = .ok (s1, tid)
          ∧ (savePhaseOne s fx sourceURL rawText articleText category facts gaps).2.1
              = s1.articleSeq + 1
          ∧ (savePhaseOne s fx sourceURL rawText articleText category facts gaps).1
            = { s1 with
                articles := s1.articles ++ [(s1.articleSeq + 1,
                  ⟨sourceURL, rawText, strL "pending", strL "timeline", articleText,
                    tid⟩)],
                articleSeq := s1.articleSeq + 1,
                facts := s1.facts ++ facts.filterMap (fun f =>
                  if trimSpace f = [] then none
                  else some ⟨s1.articleSeq + 1, trimSpace f, false, true, strL "ai"⟩),
                gaps := s1.gaps ++ gaps.filterMap (fun g =>
                  if trimSpace g = [] then none
                  else some ⟨s1.articleSeq + 1, trimSpace g, true, false⟩) }) := by
  constructor
  · intro e h
    simp only [savePhaseOne] at h ⊢
    cases hb : fx.beginErr with
    | some e2 => exact ⟨rfl, rfl⟩
    | none =>
      rw [hb] at h
      cases ht : savePhaseOneTx s fx sourceURL rawText articleText category facts gaps with
      | error e2 => exact ⟨rfl, rfl⟩
      | ok pr =>
        obtain ⟨s2, aid⟩ := pr
        rw [ht] at h
        simp at h
  · intro h
    simp only [savePhaseOne] at h ⊢
    cases hb : fx.beginErr with
    | some e2 =>
      rw [hb] at h
      simp at h
    | none =>
      rw [hb] at h
      cases ht : savePhaseOneTx s fx sourceURL rawText articleText category facts gaps with
      | error e2 =>
        rw [ht] at h
        simp at h
      | ok pr =>
        obtain ⟨s2, aid⟩ := pr
        simp only [savePhaseOneTx] at ht
        cases hrt : resolveTopicID s fx category with
        | error e2 =>
          rw [hrt] at ht
          simp at ht
        | ok pr2 =>
          obtain ⟨s1, tid⟩ := pr2
          rw [hrt] at ht
          dsimp only at ht
          cases ha : fx.articleErr with
          | some e2 =>
            rw [ha] at ht
            simp at ht
          | none =>
            rw [ha] at ht
            dsimp only at ht
            cases hf : insertFactRows fx.factErr (s1.articleSeq + 1) facts 0 with
            | error e2 =>
              rw [hf] at ht
              simp at ht
            | ok frows =>
              rw [hf] at ht
              dsimp only at ht
              cases hg : insertGapRows fx.gapErr (s1.articleSeq + 1) gaps 0 with
              | error e2 =>
                rw [hg] at ht
                simp at ht
              | ok grows =>
                rw [hg] at ht
                dsimp only at ht
                cases hc : fx.commitErr with
                | some e2 =>
                  rw [hc] at ht
                  simp at ht
                | none =>
                  rw [hc] at ht
                  simp only [Except.ok.injEq, Prod.mk.injEq] at ht
                  obtain ⟨hts, hta⟩ := ht
                  refine ⟨s1, tid, rfl, hta.symm, ?_⟩
                  rw [← hts]
                  rw [insertFactRows_ok fx.factErr (s1.articleSeq + 1) facts 0 frows hf,
                    insertGapRows_ok fx.gapErr (s1.articleSeq + 1) gaps 0 grows hg]

/-- Witness for C10 at concrete inputs: a fully successful save on an empty
store persists the article row together with the trimmed non-empty facts
and gaps (the whitespace-only fact is skipped) in one step. -/
theorem c10_save_phase_one_atomic_witness :
    (savePhaseOne ⟨[], 0, [], 0, [], []⟩
        ⟨none, none, none, none, fun _ => none, fun _ => none, none⟩
        (strL "u") (strL "raw") (strL "art") (strL "Sports")
        [strL " a ", strL "  "] [strL "q"]).2.2 = none
    ∧ ∃ s1 tid,
        resolveTopicID ⟨[], 0, [], 0, [], []⟩
          ⟨none, none, none, none, fun _ => none, fun _ => none, none⟩
          (strL "Sports") = .ok (s1, tid)
        ∧ (savePhaseOne ⟨[], 0, [], 0, [], []⟩
            ⟨none, none, none, none, fun _ => none, fun _ => none, none⟩
            (strL "u") (strL "raw") (strL "art") (strL "Sports")
            [strL " a ", strL "  "] [strL "q"]).2.1 = s1.articleSeq + 1
        ∧ (savePhaseOne ⟨[], 0, [], 0, [], []⟩
            ⟨none, none, none, none, fun _ => none, fun _ => none, none⟩
            (strL "u") (strL "raw") (strL "art") (strL "Sports")
            [strL " a ", strL "  "] [strL "q"]).1
          = { s1 with
              articles := s1.articles ++ [(s1.articleSeq + 1,
                ⟨strL "u", strL "raw", strL "pending", strL "timeline", strL "art",
                  tid⟩)],
              articleSeq := s1.articleSeq + 1,
              facts := s1.facts ++ ([strL " a ", strL "  "] : List Str).filterMap
                (fun f => if trimSpace f = [] then none
                  else some ⟨s1.articleSeq + 1, trimSpace f, false, true, strL "ai"⟩),
              gaps := s1.gaps ++ ([strL "q"] : List Str).filterMap
                (fun g => if trimSpace g = [] then none
                  else some ⟨s1.articleSeq + 1, trimSpace g, true, false⟩) } :=
  ⟨rfl,
    (c10_save_phase_one_atomic ⟨[], 0, [], 0, [], []⟩
      ⟨none, none, none, none, fun _ => none, fun _ => none, none⟩
      (strL "u") (strL "raw") (strL "art") (strL "Sports")
      [strL " a ", strL "  "] [strL "q"]).2 rfl⟩

/-- Witness for C5 at concrete inputs: a non-request-too-large error on the
first attempt is returned unchanged with exactly one attempt made. -/
theorem c5_extract_facts_shrink_retry_witness :
    (trimSpace (strL "hello") ≠ []
      ∧ (fun (_ : Nat) (_ : Str) =>
          (Except.error (GoErr.plain (strL "boom")) : Except GoErr Str)) 1
            (trimSpace (strL "hello")) = .error (.plain (strL "boom"))
      ∧ isRequestTooLargeError (.plain (strL "boom")) = false)
    ∧ ExtractFacts true (fun _ => .ok []) (fun _ => none)
        (fun _ _ => .error (.plain (strL "boom"))) (strL "hello")
      = (.error (.plain (strL "boom")), [trimSpace (strL "hello")]) :=
  ⟨⟨by decide, rfl, by decide⟩,
    (c5_extract_facts_shrink_retry true (fun _ => .ok []) (fun _ => none)
      (fun _ _ => .error (.plain (strL "boom"))) (strL "hello")
      (.plain (strL "boom"))).2.2.2.2.1 (by decide) rfl rfl (by decide)⟩

end NewsApp
